import Mathlib

/-!
Verification development for the sequencer trading platform core.

The C++ sources are shallowly embedded:
* `double` values are modelled as exact rationals (`ℚ`); all the concrete
  traces proved about use only values and operations that are exact in
  IEEE double precision, except for the square root inside the market
  impact model, which is modelled by a nondeterministic approximation
  (`sqrtApprox`) whose slack vastly exceeds double rounding error.
* unsigned 64-bit integers are modelled as `ℕ`, with the wrapping
  subtraction that the sources rely on made explicit (`u64sub`, `u64add`);
* wall-clock timestamps are treated as externally supplied inputs, and
  fields that only feed log files are omitted where noted.
-/

namespace Hft

/-- The modulus of unsigned 64-bit arithmetic. -/
def U64 : ℕ := 2 ^ 64

/-- Wrapping unsigned 64-bit subtraction `a - b` (as the C++ sources
compute it on `uint64_t` operands). -/
def u64sub (a b : ℕ) : ℕ := (((a : ℤ) - (b : ℤ)) % (U64 : ℤ)).toNat

/-- Wrapping unsigned 64-bit addition. -/
def u64add (a b : ℕ) : ℕ := (a + b) % U64

/-- messages.hpp: `PRICE_MULTIPLIER = 100000000ULL` (10^8, 8 decimals). -/
def PRICE_MULTIPLIER : ℕ := 100000000

/-- messages.hpp: `QUANTITY_MULTIPLIER = 100000000ULL`. -/
def QUANTITY_MULTIPLIER : ℕ := 100000000

/-- messages.hpp `to_float_price`: convert a fixed-point price (or
quantity) to its floating value, modelled exactly over `ℚ`. -/
def to_float_price (p : ℕ) : ℚ := (p : ℚ) / (PRICE_MULTIPLIER : ℚ)

/-- messages.hpp `enum class Side`: `BID = 0, ASK = 1, BUY = 0, SELL = 1`.
The `BUY`/`BID` and `SELL`/`ASK` aliases collapse to the same
discriminants, so the model has exactly two values. -/
inductive Side where
  | buy
  | sell
deriving DecidableEq, Repr

/-- messages.hpp `enum class OrderType`. -/
inductive OrderType where
  | limit
  | market
  | limit_ioc
  | limit_fok
  | post_only
  | stop
  | stop_limit
  | iceberg
  | pegged
deriving DecidableEq, Repr

/-- messages.hpp `enum class TimeInForce`. -/
inductive TimeInForce where
  | day
  | gtc
  | ioc
  | fok
  | gtx
  | gtd
deriving DecidableEq, Repr

/-- messages.hpp `enum class OrderStatus`. -/
inductive OrderStatus where
  | pending
  | sent
  | acknowledged
  | partially_filled
  | filled
  | cancelled
  | rejected
  | expired
deriving DecidableEq, Repr

end Hft

namespace Hft.Exch

open Hft

/-- exchange_simulator.hpp `FeeStructure` with its default member values
(`maker_rebate = -0.0002`, `taker_fee = 0.0003`, `minimum_fee = 0.01`). -/
structure FeeStructure where
  maker_rebate : ℚ := -2 / 10000
  taker_fee : ℚ := 3 / 10000
  cancel_fee : ℚ := 0
  cancel_ratio_threshold : ℕ := 100
  minimum_fee : ℚ := 1 / 100
deriving DecidableEq, Repr

/-- exchange_simulator.hpp `FeeStructure::calculate_fee`:
`notional = to_float_price(price) * to_float_price(quantity)`;
`fee_rate = is_maker ? maker_rebate : taker_fee`;
`return std::max(notional * fee_rate, is_maker ? maker_rebate : minimum_fee)`. -/
def FeeStructure.calculate_fee (f : FeeStructure) (quantity price : ℕ)
    (is_maker : Bool) : ℚ :=
  let notional := to_float_price price * to_float_price quantity
  let fee_rate := if is_maker then f.maker_rebate else f.taker_fee
  max (notional * fee_rate) (if is_maker then f.maker_rebate else f.minimum_fee)

end Hft.Exch

namespace Hft.Risk

/-- risk/enhanced_risk_manager.hpp `struct RiskLimits` with its default
member values. -/
structure RiskLimits where
  max_btc_position : ℚ := 5 / 100
  max_eth_position : ℚ := 5 / 10
  max_usd_exposure : ℚ := 10000
  max_daily_loss : ℚ := 2000
  max_drawdown : ℚ := 5000
  min_account_equity : ℚ := 45000
  max_order_size_btc : ℚ := 1 / 100
  max_order_size_eth : ℚ := 1 / 10
  max_order_notional : ℚ := 1000
  min_spread_bps : ℚ := 25
  max_spread_bps : ℚ := 1000
  min_ms_between_orders : ℕ := 100
  max_orders_per_minute : ℕ := 20
  circuit_breaker_enabled : Bool := true
  circuit_breaker_loss_threshold : ℚ := 1000
  circuit_breaker_cooldown_seconds : ℕ := 300
deriving DecidableEq, Repr

/-- comprehensive_risk_manager.hpp `struct DynamicRiskLimits`: base limits
plus the four dynamic multipliers and the calculated effective limits. -/
structure DynamicRiskLimits where
  base_limits : RiskLimits := {}
  volatility_multiplier : ℚ := 1
  liquidity_multiplier : ℚ := 1
  correlation_multiplier : ℚ := 1
  pnl_multiplier : ℚ := 1
  effective_max_position_btc : ℚ := 0
  effective_max_position_eth : ℚ := 0
  effective_max_order_size : ℚ := 0
  effective_min_spread_bps : ℚ := 0
deriving DecidableEq, Repr

/-- comprehensive_risk_manager.hpp
`DynamicRiskLimits::calculate_effective_limits`:
`combined_multiplier = min({volatility, liquidity, correlation, pnl})`;
the three position / order-size limits are multiplied by it while
`effective_min_spread_bps = base_limits.min_spread_bps / combined_multiplier`
is divided by it. -/
def DynamicRiskLimits.calculate_effective_limits (d : DynamicRiskLimits) :
    DynamicRiskLimits :=
  let combined_multiplier :=
    min d.volatility_multiplier
      (min d.liquidity_multiplier (min d.correlation_multiplier d.pnl_multiplier))
  { d with
    effective_max_position_btc := d.base_limits.max_btc_position * combined_multiplier
    effective_max_position_eth := d.base_limits.max_eth_position * combined_multiplier
    effective_max_order_size := d.base_limits.max_order_notional * combined_multiplier
    effective_min_spread_bps := d.base_limits.min_spread_bps / combined_multiplier }

end Hft.Risk

namespace Hft.Pos

/-- position_tracker.hpp `struct Position`. The wall-clock
`last_update_ns` field is not modelled (it never feeds a computation). -/
structure Position where
  quantity : ℚ := 0
  avg_price : ℚ := 0
  realized_pnl : ℚ := 0
  unrealized_pnl : ℚ := 0
  total_volume : ℚ := 0
deriving DecidableEq, Repr

/-- position_tracker.hpp `Position::add_trade`: realise P&L for the
closed portion on a sign flip (using the old `avg_price`), update
`avg_price` only when starting from flat or adding to the same side,
then accumulate quantity and volume.  Note that on a sign flip the code
leaves `avg_price` unchanged. -/
def Position.add_trade (p : Position) (trade_qty trade_price : ℚ) : Position :=
  let realized_pnl :=
    if (p.quantity > 0 ∧ trade_qty < 0) ∨ (p.quantity < 0 ∧ trade_qty > 0) then
      let closing_qty := min |trade_qty| |p.quantity|
      let closing_pnl :=
        closing_qty * (trade_price - p.avg_price) * (if p.quantity > 0 then 1 else -1)
      p.realized_pnl + closing_pnl
    else p.realized_pnl
  let avg_price :=
    if p.quantity = 0 then trade_price
    else if (p.quantity > 0 ∧ trade_qty > 0) ∨ (p.quantity < 0 ∧ trade_qty < 0) then
      (p.avg_price * |p.quantity| + trade_price * |trade_qty|) / |p.quantity + trade_qty|
    else p.avg_price
  { p with
    realized_pnl := realized_pnl
    avg_price := avg_price
    quantity := p.quantity + trade_qty
    total_volume := p.total_volume + |trade_qty| }

/-- position_tracker.hpp `Position::update_unrealized_pnl`:
`unrealized_pnl = quantity * (mark_price - avg_price)` when the position
is open, `0` when flat. -/
def Position.update_unrealized_pnl (p : Position) (mark_price : ℚ) : Position :=
  if p.quantity ≠ 0 then
    { p with unrealized_pnl := p.quantity * (mark_price - p.avg_price) }
  else
    { p with unrealized_pnl := 0 }

/-- position_tracker.hpp `struct ExchangeBalance` with its default member
values (1 BTC, 10 ETH, 50000 USD, both total and available). -/
structure ExchangeBalance where
  btc_balance : ℚ := 1
  eth_balance : ℚ := 10
  usd_balance : ℚ := 50000
  btc_available : ℚ := 1
  eth_available : ℚ := 10
  usd_available : ℚ := 50000
deriving DecidableEq, Repr

end Hft.Pos

namespace Hft.Seq

open Hft

/-- sequencer.hpp `class SPSCSequencer`: the producer sequence counter and
the commit watermark, both `uint64_t`.  The producer-private
`cached_consumer_` field is never read by any member function and is
omitted. -/
structure SPSCSequencer where
  sequence : ℕ := 0
  committed : ℕ := 0
deriving DecidableEq, Repr

/-- sequencer.hpp `SPSCSequencer` initial state (both counters zero). -/
def SPSCSequencer.init : SPSCSequencer := {}

/-- sequencer.hpp `SPSCSequencer::next`: `fetch_add(1)` on the sequence
counter, returning the previous value. -/
def SPSCSequencer.next (s : SPSCSequencer) : ℕ × SPSCSequencer :=
  (s.sequence, { s with sequence := u64add s.sequence 1 })

/-- sequencer.hpp `SPSCSequencer::claim_batch`: `fetch_add(count)`,
returning the first sequence of the claimed range. -/
def SPSCSequencer.claim_batch (s : SPSCSequencer) (count : ℕ) : ℕ × SPSCSequencer :=
  (s.sequence, { s with sequence := u64add s.sequence count })

/-- sequencer.hpp `SPSCSequencer::commit`: store `seq + 1` into the commit
watermark. -/
def SPSCSequencer.commit (s : SPSCSequencer) (seq : ℕ) : SPSCSequencer :=
  { s with committed := u64add seq 1 }

/-- sequencer.hpp `SPSCSequencer::commit_batch`: store `highest_seq + 1`
into the commit watermark. -/
def SPSCSequencer.commit_batch (s : SPSCSequencer) (highest_seq : ℕ) : SPSCSequencer :=
  { s with committed := u64add highest_seq 1 }

/-- sequencer.hpp `SPSCSequencer::get_committed`: return the watermark
minus one, with unsigned wraparound when the watermark is `0`. -/
def SPSCSequencer.get_committed (s : SPSCSequencer) : ℕ :=
  u64sub s.committed 1

/-- sequencer.hpp `SPSCSequencer::is_committed`: `seq < committed_`. -/
def SPSCSequencer.is_committed (s : SPSCSequencer) (seq : ℕ) : Bool :=
  seq < s.committed

end Hft.Seq

namespace Hft

/-- Decidable check that one list starts with the other (component of the
substring search below). -/
def leadsWith [DecidableEq α] : List α → List α → Bool
  | [], _ => true
  | _ :: _, [] => false
  | a :: as, b :: bs => a = b && leadsWith as bs

/-- Decidable contiguous-sublist check. -/
def hasSub [DecidableEq α] (pat : List α) : List α → Bool
  | [] => leadsWith pat []
  | b :: bs => leadsWith pat (b :: bs) || hasSub pat bs

/-- Model of C++ `s.find(pat) != std::string::npos`: `pat` occurs as a
contiguous substring of `s`. -/
def strContains (s pat : String) : Bool := hasSub pat.toList s.toList

/-- Lookup in an association list (model of `std::unordered_map::find`). -/
def findA [DecidableEq α] (k : α) : List (α × β) → Option β
  | [] => none
  | (k', v) :: rest => if k' = k then some v else findA k rest

/-- Model of `map[k]` followed by a mutation `f`: if the key is present
apply `f` to its value, otherwise insert `f d` where `d` is the
default-constructed value. -/
def updateA [DecidableEq α] (k : α) (d : β) (f : β → β) : List (α × β) → List (α × β)
  | [] => [(k, f d)]
  | (k', v) :: rest =>
      if k' = k then (k', f v) :: rest else (k', v) :: updateA k d f rest

end Hft

namespace Hft.Pos

open Hft

/-- position_tracker.hpp `ExchangeBalance::update_balance`: add the deltas
to the matching asset's total and available amounts; unknown assets are
ignored. -/
def ExchangeBalance.update_balance (b : ExchangeBalance) (asset : String)
    (delta_total delta_available : ℚ) : ExchangeBalance :=
  if asset = "BTC" then
    { b with btc_balance := b.btc_balance + delta_total
             btc_available := b.btc_available + delta_available }
  else if asset = "ETH" then
    { b with eth_balance := b.eth_balance + delta_total
             eth_available := b.eth_available + delta_available }
  else if asset = "USD" then
    { b with usd_balance := b.usd_balance + delta_total
             usd_available := b.usd_available + delta_available }
  else b

/-- position_tracker.hpp `class PositionTracker` state: the nested
`positions_` map is modelled with a pair key, `balances_` and
`market_prices_` as association lists.  The trade-log file and the
performance-metric fields (`total_realized_pnl_` etc.) are not read by
`get_position`/`get_balance` and are omitted here. -/
structure PositionTracker where
  positions : List ((String × String) × Position) := []
  balances : List (String × ExchangeBalance) := []
  market_prices : List ((String × String) × ℚ) := []
deriving Repr

/-- position_tracker.hpp `PositionTracker` constructor: `balances_` starts
with default-constructed entries for `"COINBASE"` and `"BINANCE"`. -/
def PositionTracker.init : PositionTracker :=
  { balances := [("COINBASE", {}), ("BINANCE", {})] }

/-- position_tracker.hpp `PositionTracker::add_trade`: update the
`(exchange, symbol)` position via `Position::add_trade`, then update the
venue balances (base asset credit and USD debit) when the symbol names
BTC or ETH. -/
def PositionTracker.add_trade (t : PositionTracker) (exchange symbol : String)
    (quantity price : ℚ) : PositionTracker :=
  let notional := quantity * price
  let positions :=
    updateA (exchange, symbol) {} (fun p => p.add_trade quantity price) t.positions
  let balances :=
    if strContains symbol "BTC" then
      updateA exchange {}
        (fun b => (b.update_balance "BTC" quantity quantity).update_balance
          "USD" (-notional) (-notional)) t.balances
    else if strContains symbol "ETH" then
      updateA exchange {}
        (fun b => (b.update_balance "ETH" quantity quantity).update_balance
          "USD" (-notional) (-notional)) t.balances
    else t.balances
  { t with positions := positions, balances := balances }

/-- position_tracker.hpp `PositionTracker::update_market_price`: record
the mark and, when a position entry for the symbol exists, recompute its
unrealized P&L.  (`positions_[exchange]` creates an empty per-exchange
map but never a per-symbol entry, which is invisible through
`get_position`.) -/
def PositionTracker.update_market_price (t : PositionTracker)
    (exchange symbol : String) (price : ℚ) : PositionTracker :=
  let market_prices := updateA (exchange, symbol) 0 (fun _ => price) t.market_prices
  let positions :=
    match findA (exchange, symbol) t.positions with
    | some _ =>
        updateA (exchange, symbol) {} (fun p => p.update_unrealized_pnl price) t.positions
    | none => t.positions
  { t with market_prices := market_prices, positions := positions }

/-- position_tracker.hpp `PositionTracker::get_position`: return the
stored position, or a default-constructed (all-zero) `Position` when the
`(exchange, symbol)` pair has no entry. -/
def PositionTracker.get_position (t : PositionTracker)
    (exchange symbol : String) : Position :=
  (findA (exchange, symbol) t.positions).getD {}

/-- position_tracker.hpp `PositionTracker::get_balance`: return the stored
balance, or a default-constructed `ExchangeBalance` when the exchange has
no entry. -/
def PositionTracker.get_balance (t : PositionTracker) (exchange : String) :
    ExchangeBalance :=
  (findA exchange t.balances).getD {}

/-- The mutating operations a client can perform on a `PositionTracker`
(the `add_trade_with_slippage` path ends in `add_trade` with a perturbed
price and is covered by the `add_trade` constructor). -/
inductive TrackerOp where
  | add_trade (exchange symbol : String) (quantity price : ℚ)
  | update_market_price (exchange symbol : String) (price : ℚ)

/-- Apply one tracker operation. -/
def TrackerOp.apply (t : PositionTracker) : TrackerOp → PositionTracker
  | .add_trade e s q p => t.add_trade e s q p
  | .update_market_price e s p => t.update_market_price e s p

/-- Run a list of tracker operations from the freshly constructed
tracker. -/
def PositionTracker.run (ops : List TrackerOp) : PositionTracker :=
  ops.foldl TrackerOp.apply PositionTracker.init

/-- Whether an operation records a trade for the given
`(exchange, symbol)` pair. -/
def TrackerOp.trades_on (op : TrackerOp) (e s : String) : Bool :=
  match op with
  | .add_trade e' s' _ _ => e' = e && s' = s
  | _ => false

/-- Whether an operation records a trade on the given exchange. -/
def TrackerOp.trades_on_exchange (op : TrackerOp) (e : String) : Bool :=
  match op with
  | .add_trade e' _ _ _ => e' = e
  | _ => false

end Hft.Pos

namespace Hft.Risk

open Hft

/-- risk/enhanced_risk_manager.hpp `class EnhancedRiskManager` state: the
emergency-stop flag, the circuit-breaker flag and trigger time, the
configured limits, the two per-exchange rate-limit maps, and the
violation/event counters.  The `risk_events_` vector only feeds logs and
is modelled by its length. -/
structure RMState where
  emergency_stop_active : Bool := false
  circuit_breaker_active : Bool := false
  circuit_breaker_trigger_time : ℕ := 0
  limits : RiskLimits := {}
  last_order_time : List (String × ℕ) := []
  recent_orders : List (String × List ℕ) := []
  risk_violations_today : ℕ := 0
  risk_events : ℕ := 0

/-- Inputs that `can_execute_trade` obtains from outside the risk-manager
state: the wall clock and the `PositionTracker` query results. -/
structure RMEnv where
  now : ℕ := 0
  position_quantity : ℚ := 0
  can_trade : Bool := true
  total_equity : ℚ := 100000
  daily_pnl : ℚ := 0
  max_drawdown : ℚ := 0
deriving DecidableEq

/-- risk/enhanced_risk_manager.hpp `create_risk_event`: append an event
and bump `risk_violations_today_`. -/
def RMState.create_risk_event (st : RMState) : RMState :=
  { st with
    risk_events := st.risk_events + 1
    risk_violations_today := st.risk_violations_today + 1 }

/-- risk/enhanced_risk_manager.hpp `trigger_circuit_breaker`: set the
breaker flag, record the trigger time, and append an event (without going
through `create_risk_event`). -/
def RMState.trigger_circuit_breaker (st : RMState) (now : ℕ) : RMState :=
  { st with
    circuit_breaker_active := true
    circuit_breaker_trigger_time := now
    risk_events := st.risk_events + 1 }

/-- risk/enhanced_risk_manager.hpp `is_circuit_breaker_cooling_down`:
report whether the breaker is active, lazily resetting it once the
cooldown has elapsed (the function mutates the `mutable` atomics even
though it is `const`). -/
def RMState.is_circuit_breaker_cooling_down (st : RMState) (now : ℕ) :
    Bool × RMState :=
  if ¬st.circuit_breaker_active then (false, st)
  else
    let elapsed_seconds := u64sub now st.circuit_breaker_trigger_time / 1000000000
    if st.limits.circuit_breaker_cooldown_seconds ≤ elapsed_seconds then
      (false, { st with circuit_breaker_active := false })
    else (true, st)

/-- risk/enhanced_risk_manager.hpp `check_rate_limits`: reject when the
last order on this exchange is younger than `min_ms_between_orders`,
otherwise prune the per-minute window and reject when it already holds
`max_orders_per_minute` entries. -/
def RMState.check_rate_limits (st : RMState) (exchange : String) (now : ℕ) :
    Bool × RMState :=
  let too_soon : Bool :=
    match findA exchange st.last_order_time with
    | some t => decide (u64sub now t / 1000000 < st.limits.min_ms_between_orders)
    | none => false
  if too_soon then (false, st)
  else
    let minute_ago := u64sub now 60000000000
    let recent := ((findA exchange st.recent_orders).getD []).filter
      (fun ts => ¬ts < minute_ago)
    let st' := { st with
      recent_orders := updateA exchange [] (fun _ => recent) st.recent_orders }
    if st.limits.max_orders_per_minute ≤ recent.length then (false, st')
    else (true, st')

/-- risk/enhanced_risk_manager.hpp `EnhancedRiskManager::can_execute_trade`:
the eight-stage cascade — emergency stop, circuit breaker, rate limits,
spread band, order size, resulting position, balance, and
equity/P&L/drawdown breaker triggers — recording the rate-limit
bookkeeping only on a clean pass. -/
def RMState.can_execute_trade (st : RMState) (env : RMEnv)
    (exchange symbol : String) (quantity price spread_bps : ℚ) :
    Bool × RMState :=
  if st.emergency_stop_active then (false, st)
  else
    let cool :=
      if st.limits.circuit_breaker_enabled then
        st.is_circuit_breaker_cooling_down env.now
      else (false, st)
    if cool.1 then (false, cool.2)
    else
      let rate := cool.2.check_rate_limits exchange env.now
      let st1 := rate.2
      if ¬rate.1 then (false, st1.create_risk_event)
      else if spread_bps < st1.limits.min_spread_bps then
        (false, st1.create_risk_event)
      else if st1.limits.max_spread_bps < spread_bps then
        (false, st1.create_risk_event)
      else
        let notional := |quantity * price|
        if st1.limits.max_order_notional < notional then
          (false, st1.create_risk_event)
        else if strContains symbol "BTC" ∧ st1.limits.max_order_size_btc < |quantity| then
          (false, st1.create_risk_event)
        else if strContains symbol "ETH" ∧ st1.limits.max_order_size_eth < |quantity| then
          (false, st1.create_risk_event)
        else
          let new_position := env.position_quantity + quantity
          if strContains symbol "BTC" ∧ st1.limits.max_btc_position < |new_position| then
            (false, st1.create_risk_event)
          else if strContains symbol "ETH" ∧ st1.limits.max_eth_position < |new_position| then
            (false, st1.create_risk_event)
          else if ¬env.can_trade then (false, st1.create_risk_event)
          else if env.total_equity < st1.limits.min_account_equity then
            (false, st1.trigger_circuit_breaker env.now)
          else if env.daily_pnl < -st1.limits.max_daily_loss then
            (false, st1.trigger_circuit_breaker env.now)
          else if st1.limits.max_drawdown < env.max_drawdown then
            (false, st1.trigger_circuit_breaker env.now)
          else
            (true, { st1 with
              last_order_time := updateA exchange 0 (fun _ => env.now) st1.last_order_time
              recent_orders :=
                updateA exchange [] (fun l => l ++ [env.now]) st1.recent_orders })

/-- risk/enhanced_risk_manager.hpp `EnhancedRiskManager::emergency_stop`:
set the flag and record a halting risk event (its `reason` string only
feeds the log). -/
def RMState.emergency_stop (st : RMState) : RMState :=
  RMState.create_risk_event { st with emergency_stop_active := true }

/-- risk/enhanced_risk_manager.hpp `reset_emergency_stop`: clear the
flag. -/
def RMState.reset_emergency_stop (st : RMState) : RMState :=
  { st with emergency_stop_active := false }

/-- risk/enhanced_risk_manager.hpp `update_limits`. -/
def RMState.update_limits (st : RMState) (l : RiskLimits) : RMState :=
  { st with limits := l }

/-- risk/enhanced_risk_manager.hpp `is_trading_halted`:
`emergency_stop_active_ || (circuit_breaker_enabled && cooling_down())`,
with the lazy breaker reset as a side effect. -/
def RMState.is_trading_halted (st : RMState) (now : ℕ) : Bool × RMState :=
  if st.emergency_stop_active then (true, st)
  else if st.limits.circuit_breaker_enabled then
    st.is_circuit_breaker_cooling_down now
  else (false, st)

/-- The public mutating operations of `EnhancedRiskManager`. -/
inductive RMOp where
  | can_execute (env : RMEnv) (exchange symbol : String)
      (quantity price spread_bps : ℚ)
  | emergency_stop
  | reset_emergency_stop
  | update_limits (l : RiskLimits)
  | create_risk_event
  | is_trading_halted (now : ℕ)
deriving DecidableEq

/-- Apply one risk-manager operation (results of queries are discarded;
only the state evolution matters here). -/
def RMOp.apply (st : RMState) : RMOp → RMState
  | .can_execute env e s q p sp => (st.can_execute_trade env e s q p sp).2
  | .emergency_stop => st.emergency_stop
  | .reset_emergency_stop => st.reset_emergency_stop
  | .update_limits l => st.update_limits l
  | .create_risk_event => st.create_risk_event
  | .is_trading_halted now => (st.is_trading_halted now).2

end Hft.Risk

namespace Hft.Ring

/-- ring_buffer.hpp `SPSCRingBuffer` index state: the producer's write
position with its cached view of the read position, and the consumer's
read position with its cached view of the write position.  The payload
array is not modelled (the claims below concern occupancy, which is
determined by the indices alone); the positions are modelled as
unbounded counters — they are monotone `uint64_t` counters in the source
whose differences in the full/empty tests stay below `SIZE`, so no
wraparound can occur before 2^64 operations. -/
structure SPSCRingBuffer where
  write_pos : ℕ := 0
  cached_read_pos : ℕ := 0
  read_pos : ℕ := 0
  cached_write_pos : ℕ := 0
deriving DecidableEq, Repr

/-- ring_buffer.hpp `SPSCRingBuffer::write`: fail when
`next_write - cached_read_pos > SIZE`, refreshing the cached read
position once before the final decision; on success advance the write
position. -/
def SPSCRingBuffer.write (SIZE : ℕ) (st : SPSCRingBuffer) :
    Bool × SPSCRingBuffer :=
  let next_write := st.write_pos + 1
  if SIZE < next_write - st.cached_read_pos then
    let fresh := st.read_pos
    if SIZE < next_write - fresh then
      (false, { st with cached_read_pos := fresh })
    else
      (true, { st with cached_read_pos := fresh, write_pos := next_write })
  else
    (true, { st with write_pos := next_write })

/-- ring_buffer.hpp `SPSCRingBuffer::read`: fail when
`current_read >= cached_write_pos` still holds after refreshing the
cached write position; on success advance the read position. -/
def SPSCRingBuffer.read (st : SPSCRingBuffer) : Bool × SPSCRingBuffer :=
  if st.cached_write_pos ≤ st.read_pos then
    let fresh := st.write_pos
    if fresh ≤ st.read_pos then
      (false, { st with cached_write_pos := fresh })
    else
      (true, { st with cached_write_pos := fresh, read_pos := st.read_pos + 1 })
  else
    (true, { st with read_pos := st.read_pos + 1 })

/-- States of an `SPSCRingBuffer` of capacity `SIZE` reachable from the
freshly constructed buffer by any sequence of `write` and `read` calls
(single-threaded interleaving of the one producer and one consumer). -/
inductive RBReachable (SIZE : ℕ) : SPSCRingBuffer → Prop where
  | init : RBReachable SIZE {}
  | write {st : SPSCRingBuffer} (h : RBReachable SIZE st) :
      RBReachable SIZE (SPSCRingBuffer.write SIZE st).2
  | read {st : SPSCRingBuffer} (h : RBReachable SIZE st) :
      RBReachable SIZE st.read.2

end Hft.Ring

namespace Hft.Exch

open Hft

/-- exchange_simulator.hpp `ExchangeSimulator::Order`.  The `uint64_t`
price/quantity fields are fixed-point with scale 10^8. -/
structure ExOrder where
  id : ℕ
  side : Side
  otype : OrderType
  price : ℕ
  quantity : ℕ
  filled_quantity : ℕ := 0
  timestamp : ℕ
  priority : ℕ := 0
  trader_id : String
  tif : TimeInForce := .day
  status : OrderStatus := .pending
deriving DecidableEq, Repr

/-- exchange_simulator.hpp `Order::remaining_quantity`:
`quantity - filled_quantity` computed on `uint64_t`, i.e. with unsigned
wraparound when `filled_quantity > quantity`. -/
def ExOrder.remaining_quantity (o : ExOrder) : ℕ :=
  u64sub o.quantity o.filled_quantity

/-- exchange_simulator.hpp `Order::is_fully_filled`:
`filled_quantity >= quantity`. -/
def ExOrder.is_fully_filled (o : ExOrder) : Bool :=
  o.quantity ≤ o.filled_quantity

/-- exchange_simulator.hpp `ExchangeSimulator::Fill`.  The wall-clock
`timestamp` and the `trade_id` derived from it are not modelled. -/
structure Fill where
  order_id : ℕ
  trader_id : String
  side : Side
  price : ℕ
  quantity : ℕ
  fee : ℚ := 0
  is_maker : Bool
deriving DecidableEq, Repr

/-- exchange_simulator.hpp `ExchangeSimulator::OrderBook`: bids as a map
sorted by descending price, asks ascending, each level a FIFO of orders;
`next_priority` is the per-book arrival counter. -/
structure OrderBook where
  bids : List (ℕ × List ExOrder) := []
  asks : List (ℕ × List ExOrder) := []
  next_priority : ℕ := 0
deriving DecidableEq, Repr

/-- Insertion into a price-sorted association list of levels (`before p q`
says level `p` precedes level `q` in the map's order); an existing
level's FIFO gets the order appended at the back (`push_back`). -/
def insertLevel (before : ℕ → ℕ → Bool) (p : ℕ) (o : ExOrder) :
    List (ℕ × List ExOrder) → List (ℕ × List ExOrder)
  | [] => [(p, [o])]
  | (q, os) :: rest =>
      if p = q then (q, os ++ [o]) :: rest
      else if before p q then (p, [o]) :: (q, os) :: rest
      else (q, os) :: insertLevel before p o rest

/-- exchange_simulator.hpp `OrderBook::add_order`: stamp the arrival
priority, then append to the bid side (descending price map) or the ask
side (ascending). -/
def OrderBook.add_order (bk : OrderBook) (o : ExOrder) : OrderBook :=
  let o' := { o with priority := bk.next_priority }
  if o.side = .buy then
    { bk with
      bids := insertLevel (fun a b => b < a) o'.price o' bk.bids
      next_priority := bk.next_priority + 1 }
  else
    { bk with
      asks := insertLevel (fun a b => a < b) o'.price o' bk.asks
      next_priority := bk.next_priority + 1 }

/-- All orders currently resting in the book, bid side first. -/
def OrderBook.allOrders (bk : OrderBook) : List ExOrder :=
  (bk.bids.map Prod.snd).flatten ++ (bk.asks.map Prod.snd).flatten

/-- exchange_simulator.hpp `ExchangeSimulator::validate_order`: reject
zero quantity, zero price on a limit order, or a missing symbol book
(`order_books_.find(1)`); the order's time-in-force is never consulted. -/
def validate_order (o : ExOrder) (has_symbol_books : Bool) : Option String :=
  if o.quantity = 0 then some "Invalid quantity"
  else if o.otype = .limit ∧ o.price = 0 then some "Invalid price for limit order"
  else if ¬has_symbol_books then some "Unknown symbol"
  else none

/-- exchange_simulator.hpp `MarketImpactModel` with its default member
values. -/
structure MarketImpactModel where
  linear_impact : ℚ := 1 / 1000000
  sqrt_impact : ℚ := 1 / 10000
  temporary_impact : ℚ := 1 / 2
  decay_rate : ℚ := 1 / 10
deriving DecidableEq, Repr

/-- Specification of the value the `double` computation
`std::sqrt(x)` may deliver: a nonnegative `sq` with
`sq^2 ≤ x ≤ (sq + 1/1000)^2`.  The slack of `1/1000` is far larger than
the rounding error of a correctly rounded double square root on the
magnitudes involved, so the true machine value always satisfies this. -/
def sqrtApprox (x sq : ℚ) : Prop :=
  0 ≤ sq ∧ sq * sq ≤ x ∧ x ≤ (sq + 1 / 1000) * (sq + 1 / 1000)

/-- Model of `static_cast<uint64_t>` applied to a nonnegative `double`
value: truncation toward zero (equals the floor on the nonnegative
values arising here). -/
def qtrunc (x : ℚ) : ℕ := ⌊x⌋.toNat

/-- exchange_simulator.hpp `ExchangeSimulator::apply_market_impact`:
`impact_factor = (linear_impact · rem + sqrt_impact · √rem) ·
participation_rate` where `rem = to_float_price(order.remaining)`, and
every resting order on the opposite-direction side (asks for a buy,
bids for a sell) has
`quantity = static_cast<Quantity>(quantity · (1 − impact_factor · 0.1))`.
The square root is passed in as `sq` (see `sqrtApprox`). -/
def apply_market_impact (im : MarketImpactModel) (sq : ℚ) (o : ExOrder)
    (bk : OrderBook) (participation_rate : ℚ) : OrderBook :=
  let rem := to_float_price o.remaining_quantity
  let impact_factor := (im.linear_impact * rem + im.sqrt_impact * sq) * participation_rate
  let scale := fun (ord : ExOrder) =>
    { ord with quantity := qtrunc ((ord.quantity : ℚ) * (1 - impact_factor * (1 / 10))) }
  if o.side = .buy then
    { bk with asks := bk.asks.map (fun lv => (lv.1, lv.2.map scale)) }
  else
    { bk with bids := bk.bids.map (fun lv => (lv.1, lv.2.map scale)) }

/-- Outcome of inspecting the book at the top of one iteration of the
`match_orders` while loop, up to (but not including) the market-impact
call: either the loop exits (`done`), an empty level is erased and the
loop continues (`cleaned`), or a match happened (`ready`, carrying the
book with both head orders' `filled_quantity` advanced, the order that
will drive the market impact, and the two emitted fills). -/
inductive StepPre where
  | done
  | cleaned (bk : OrderBook)
  | ready (bk₁ : OrderBook) (impact_order : ExOrder) (bid_fill ask_fill : Fill)
deriving Repr

/-- One iteration of exchange_simulator.hpp
`ExchangeSimulator::match_orders` up to the market-impact call: exit when
a side is empty or the best bid price is below the best ask price;
otherwise cross at `best_ask.price` when the bid is older else
`best_bid.price`, for `min` of the remaining quantities, emit both fills
(fees via `FeeStructure::calculate_fee`), and advance both
`filled_quantity` fields.  The impact order is `best_bid` if it still has
remaining quantity, else `best_ask` (evaluated after the fill update, as
the C++ references do). -/
def match_pre (fees : FeeStructure) (bk : OrderBook) : StepPre :=
  match bk.bids, bk.asks with
  | [], _ => .done
  | _ :: _, [] => .done
  | (bp, bos) :: brest, (ap, aos) :: arest =>
    match bos, aos with
    | [], [] => .cleaned { bk with bids := brest, asks := arest }
    | [], _ :: _ => .cleaned { bk with bids := brest }
    | _ :: _, [] => .cleaned { bk with asks := arest }
    | bo :: btail, ao :: atail =>
      if bo.price < ao.price then .done
      else
        let match_price := if bo.timestamp < ao.timestamp then ao.price else bo.price
        let match_quantity := min bo.remaining_quantity ao.remaining_quantity
        let bid_is_maker : Bool := decide (bo.timestamp < ao.timestamp)
        let bid_fill : Fill :=
          { order_id := bo.id, trader_id := bo.trader_id, side := bo.side,
            price := match_price, quantity := match_quantity,
            fee := fees.calculate_fee match_quantity match_price bid_is_maker,
            is_maker := bid_is_maker }
        let ask_fill : Fill :=
          { order_id := ao.id, trader_id := ao.trader_id, side := ao.side,
            price := match_price, quantity := match_quantity,
            fee := fees.calculate_fee match_quantity match_price (!bid_is_maker),
            is_maker := !bid_is_maker }
        let bo' := { bo with filled_quantity := u64add bo.filled_quantity match_quantity }
        let ao' := { ao with filled_quantity := u64add ao.filled_quantity match_quantity }
        let bk₁ := { bk with
          bids := (bp, bo' :: btail) :: brest
          asks := (ap, ao' :: atail) :: arest }
        let impact_order := if 0 < bo'.remaining_quantity then bo' else ao'
        .ready bk₁ impact_order bid_fill ask_fill

/-- The pop step at the end of one `match_orders` iteration on one side
of the book: remove the head order of the best level when it is fully
filled, and erase the level when that empties it. -/
def popHead (l : List (ℕ × List ExOrder)) : List (ℕ × List ExOrder) :=
  match l with
  | (p, o :: tail) :: rest =>
      if o.is_fully_filled then
        (if tail.isEmpty then rest else (p, tail) :: rest)
      else (p, o :: tail) :: rest
  | other => other

/-- The tail of one `match_orders` iteration: apply the market impact
(participation rate `0.1` as at the call site), then pop fully filled
head orders — reading them from the post-impact book, since the C++
references alias the deques being scaled — and erase levels that became
empty. -/
def match_finish (im : MarketImpactModel) (sq : ℚ) (bk₁ : OrderBook)
    (impact_order : ExOrder) : OrderBook :=
  let bk₂ := apply_market_impact im sq impact_order bk₁ (1 / 10)
  { bk₂ with bids := popHead bk₂.bids, asks := popHead bk₂.asks }

/-- Fueled form of the exchange_simulator.hpp `match_orders` while loop.
Each productive iteration consumes the head of `sqs`, the successive
values delivered by `std::sqrt` inside the market-impact model; fills
are produced in emission order. -/
def match_orders (fees : FeeStructure) (im : MarketImpactModel) :
    ℕ → List ℚ → OrderBook → OrderBook × List Fill
  | 0, _, bk => (bk, [])
  | fuel + 1, sqs, bk =>
    match match_pre fees bk with
    | .done => (bk, [])
    | .cleaned bk' => match_orders fees im fuel sqs bk'
    | .ready bk₁ w f1 f2 =>
        let bk₂ := match_finish im (sqs.headD 0) bk₁ w
        let rest := match_orders fees im fuel sqs.tail bk₂
        (rest.1, f1 :: f2 :: rest.2)

/-- Book states reachable in `ExchangeSimulator` through order submission
(an order that passed `validate_order`, freshly constructed with
`filled_quantity = 0` and a `uint64_t` quantity) and iterations of the
matching loop, including its market-impact adjustment; the `double`
square root inside the impact model is constrained by `sqrtApprox`. -/
inductive Reach (fees : FeeStructure) (im : MarketImpactModel) : OrderBook → Prop where
  | init : Reach fees im {}
  | submit {bk : OrderBook} {o : ExOrder} (h : Reach fees im bk)
      (hf : o.filled_quantity = 0) (hq : o.quantity ≠ 0) (hq64 : o.quantity < U64)
      (hp : o.otype = .limit → o.price ≠ 0) :
      Reach fees im (bk.add_order o)
  | clean {bk bk' : OrderBook} (h : Reach fees im bk)
      (hc : match_pre fees bk = .cleaned bk') :
      Reach fees im bk'
  | step {bk bk₁ : OrderBook} {w : ExOrder} {f1 f2 : Fill} {sq : ℚ}
      (h : Reach fees im bk)
      (hr : match_pre fees bk = .ready bk₁ w f1 f2)
      (hsq : sqrtApprox (to_float_price w.remaining_quantity) sq) :
      Reach fees im (match_finish im sq bk₁ w)

end Hft.Exch

namespace Hft.Exch

open Hft

/-- Scenario S1 maker order: trader `M` posts buy limit 100.00 × 1.0
(fixed-point scale 10^8), arriving first. -/
def s1M : ExOrder :=
  { id := 1, side := .buy, otype := .limit, price := 10000000000,
    quantity := 100000000, timestamp := 1, trader_id := "M" }

/-- Scenario S1 taker order: trader `T` submits sell limit 99.50 × 0.4,
arriving second. -/
def s1T : ExOrder :=
  { id := 2, side := .sell, otype := .limit, price := 9950000000,
    quantity := 40000000, timestamp := 2, trader_id := "T" }

/-- Scenario S1 book: empty book, `M` added, then `T` added. -/
def s1book : OrderBook := (OrderBook.add_order {} s1M).add_order s1T

/-- The S1 book after both heads' `filled_quantity` advanced by the match
quantity 0.4 (the `bk₁` component of the matching iteration). -/
def s1bk1 : OrderBook :=
  { bids := [(10000000000, [{ s1M with priority := 0, filled_quantity := 40000000 }])],
    asks := [(9950000000, [{ s1T with priority := 1, filled_quantity := 40000000 }])],
    next_priority := 2 }

/-- The order driving the market impact in the S1 match: the bid head,
which still has 0.6 remaining. -/
def s1imp : ExOrder := { s1M with priority := 0, filled_quantity := 40000000 }

/-- The fill emitted for `M` in scenario S1 (as the code computes it). -/
def s1fillM : Fill :=
  { order_id := 1, trader_id := "M", side := .buy, price := 9950000000,
    quantity := 40000000, fee := -1 / 5000, is_maker := true }

/-- The fill emitted for `T` in scenario S1 (as the code computes it). -/
def s1fillT : Fill :=
  { order_id := 2, trader_id := "T", side := .sell, price := 9950000000,
    quantity := 40000000, fee := 597 / 50000, is_maker := false }

/-- The S1 book after the matching loop: `M` rests with 0.6 remaining,
the ask side is empty. -/
def s1final : OrderBook :=
  { bids := [(10000000000, [{ s1M with priority := 0, filled_quantity := 40000000 }])],
    asks := [], next_priority := 2 }

/-- First order of the market-impact trace: sell limit 99.50 ×
1.00000001. -/
def c7T1 : ExOrder :=
  { id := 1, side := .sell, otype := .limit, price := 9950000000,
    quantity := 100000001, timestamp := 1, trader_id := "T1" }

/-- Second order of the market-impact trace: buy limit 100.00 × 1.0,
which fills completely against `c7T1` leaving it one tick short of
full. -/
def c7M1 : ExOrder :=
  { id := 2, side := .buy, otype := .limit, price := 10000000000,
    quantity := 100000000, timestamp := 2, trader_id := "M1" }

/-- Third order of the market-impact trace: sell limit 99.00 × 0.5,
posted below `c7T1`. -/
def c7T2 : ExOrder :=
  { id := 3, side := .sell, otype := .limit, price := 9900000000,
    quantity := 50000000, timestamp := 3, trader_id := "T2" }

/-- Fourth order of the market-impact trace: buy limit 99.20 × 1.0; its
match against `c7T2` leaves it with remaining quantity, so the market
impact scales the whole ask side — including the resting, almost fully
filled `c7T1`. -/
def c7M2 : ExOrder :=
  { id := 4, side := .buy, otype := .limit, price := 9920000000,
    quantity := 100000000, timestamp := 4, trader_id := "M2" }

end Hft.Exch

namespace Hft.Exch

/-- Book of the market-impact trace after submitting `c7T1` then `c7M1`. -/
def c7b2 : OrderBook := (OrderBook.add_order {} c7T1).add_order c7M1

/-- The impact-trace book after the first match advanced both heads'
`filled_quantity` by 1.0 (the `bk₁` of that iteration). -/
def c7bk1 : OrderBook :=
  { bids := [(10000000000, [{ c7M1 with priority := 1, filled_quantity := 100000000 }])],
    asks := [(9950000000, [{ c7T1 with priority := 0, filled_quantity := 100000000 }])],
    next_priority := 2 }

/-- Impact order of the first trace match: the ask head `c7T1`, since the
bid head filled completely. -/
def c7io1 : ExOrder := { c7T1 with priority := 0, filled_quantity := 100000000 }

/-- Bid-side fill of the first trace match. -/
def c7f1 : Fill :=
  { order_id := 2, trader_id := "M1", side := .buy, price := 10000000000,
    quantity := 100000000, fee := 3 / 100, is_maker := false }

/-- Ask-side fill of the first trace match. -/
def c7f2 : Fill :=
  { order_id := 1, trader_id := "T1", side := .sell, price := 10000000000,
    quantity := 100000000, fee := -1 / 5000, is_maker := true }

/-- The trace book after the first full iteration: `c7M1` filled and
popped, `c7T1` resting with one tick remaining. -/
def c7b3 : OrderBook :=
  { bids := [],
    asks := [(9950000000, [{ c7T1 with priority := 0, filled_quantity := 100000000 }])],
    next_priority := 2 }

/-- The trace book after additionally submitting `c7T2` then `c7M2`. -/
def c7b4 : OrderBook := (c7b3.add_order c7T2).add_order c7M2

/-- The `bk₁` of the second trace match (`c7M2` against `c7T2` for 0.5). -/
def c7bk2 : OrderBook :=
  { bids := [(9920000000, [{ c7M2 with priority := 3, filled_quantity := 50000000 }])],
    asks := [(9900000000, [{ c7T2 with priority := 2, filled_quantity := 50000000 }]),
             (9950000000, [{ c7T1 with priority := 0, filled_quantity := 100000000 }])],
    next_priority := 4 }

/-- Impact order of the second trace match: the bid head `c7M2`, which
still has 0.5 remaining — so the market impact scales the ask side. -/
def c7io2 : ExOrder := { c7M2 with priority := 3, filled_quantity := 50000000 }

/-- Bid-side fill of the second trace match. -/
def c7f3 : Fill :=
  { order_id := 4, trader_id := "M2", side := .buy, price := 9920000000,
    quantity := 50000000, fee := 93 / 6250, is_maker := false }

/-- Ask-side fill of the second trace match. -/
def c7f4 : Fill :=
  { order_id := 3, trader_id := "T2", side := .sell, price := 9920000000,
    quantity := 50000000, fee := -1 / 5000, is_maker := true }

/-- The final trace book: the impact of the second match scaled the
resting `c7T1` from quantity 1.00000001 down to 0.99999929 while its
`filled_quantity` stayed at 1.0 — `quantity < filled_quantity`. -/
def c7b5 : OrderBook :=
  { bids := [(9920000000, [{ c7M2 with priority := 3, filled_quantity := 50000000 }])],
    asks := [(9950000000,
      [{ c7T1 with priority := 0, quantity := 99999929, filled_quantity := 100000000 }])],
    next_priority := 4 }

/-- The damaged resting order inside `c7b5`. -/
def c7bad : ExOrder :=
  { c7T1 with priority := 0, quantity := 99999929, filled_quantity := 100000000 }

end Hft.Exch


namespace Hft

/-- Unsigned 64-bit subtraction agrees with `ℕ` subtraction when no
borrow occurs. -/
theorem u64sub_of_le {a b : ℕ} (hba : b ≤ a) (ha : a < U64) :
    u64sub a b = a - b := by
  have h0 : (0 : ℤ) ≤ (a : ℤ) - (b : ℤ) := by
    exact_mod_cast sub_nonneg.mpr (Int.ofNat_le.mpr hba)
  have h1 : (a : ℤ) - (b : ℤ) < (U64 : ℤ) := by
    have : (a : ℤ) - (b : ℤ) ≤ (a : ℤ) := by omega
    exact lt_of_le_of_lt this (by exact_mod_cast ha)
  rw [u64sub, Int.emod_eq_of_lt h0 h1]
  omega

/-- Unsigned 64-bit addition agrees with `ℕ` addition when no carry
occurs. -/
theorem u64add_of_lt {a b : ℕ} (h : a + b < U64) : u64add a b = a + b :=
  Nat.mod_eq_of_lt h

/-- Wrapping subtraction is zero exactly on equal reduced operands. -/
theorem u64sub_eq_zero_iff {a b : ℕ} (hba : b ≤ a) (ha : a < U64) :
    u64sub a b = 0 ↔ a = b := by
  rw [u64sub_of_le hba ha]
  omega

end Hft

namespace Hft.Exch

open Hft

/-- CLAIM C5.  At a maker fill of quantity 1.0 at price 100.0 under the
default fee structure, `calculate_fee` returns the raw `maker_rebate`
parameter (−0.0002) and not the notional-proportional rebate
`notional · maker_rebate = −0.02`: the `std::max` compares the
notional-scaled negative with the raw-parameter negative, so for any
notional above 1 the rebate stops scaling with the notional.  The taker
side at the same fill behaves as the claim states
(`max(notional · taker_fee, minimum_fee) = 0.03`). -/
theorem calculate_fee_maker_not_proportional :
    ({} : FeeStructure).calculate_fee QUANTITY_MULTIPLIER (100 * PRICE_MULTIPLIER) true
        = -2 / 10000 ∧
    (to_float_price (100 * PRICE_MULTIPLIER) * to_float_price QUANTITY_MULTIPLIER)
        * (-2 / 10000) = -2 / 100 ∧
    ({} : FeeStructure).calculate_fee QUANTITY_MULTIPLIER (100 * PRICE_MULTIPLIER) true
        ≠ (to_float_price (100 * PRICE_MULTIPLIER) * to_float_price QUANTITY_MULTIPLIER)
        * (-2 / 10000) ∧
    ({} : FeeStructure).calculate_fee QUANTITY_MULTIPLIER (100 * PRICE_MULTIPLIER) false
        = 3 / 100 := by
  refine ⟨?_, by norm_num [to_float_price, PRICE_MULTIPLIER, QUANTITY_MULTIPLIER], ?_, ?_⟩ <;>
    norm_num [FeeStructure.calculate_fee, to_float_price, PRICE_MULTIPLIER,
      QUANTITY_MULTIPLIER]

end Hft.Exch

namespace Hft.Risk

/-- CLAIM C3 counterexample.  With default base limits and the volatility
multiplier lowered to 1/2 (the other three at 1), the code sets
`effective_min_spread_bps = 25 / (1/2) = 50`, which is not the claimed
`base × min(multipliers) = 12.5`; moreover lowering the multiplier from
1 to 1/2 *raised* `effective_min_spread_bps` from 25 to 50, refuting the
claimed monotonicity for that limit. -/
theorem effective_min_spread_not_base_times_min :
    (({ volatility_multiplier := 1 / 2 } :
        DynamicRiskLimits).calculate_effective_limits.effective_min_spread_bps = 50) ∧
    (({ volatility_multiplier := 1 / 2 } :
        DynamicRiskLimits).calculate_effective_limits.effective_min_spread_bps ≠
      ({} : RiskLimits).min_spread_bps * (1 / 2)) ∧
    (({} : DynamicRiskLimits).calculate_effective_limits.effective_min_spread_bps = 25) ∧
    (({} : DynamicRiskLimits).calculate_effective_limits.effective_min_spread_bps <
      ({ volatility_multiplier := 1 / 2 } :
        DynamicRiskLimits).calculate_effective_limits.effective_min_spread_bps) := by
  refine ⟨?_, ?_, ?_, ?_⟩ <;>
    norm_num [DynamicRiskLimits.calculate_effective_limits]

/-- CLAIM C3 (amended).  The three position/order-size effective limits
equal the corresponding base limit times the minimum of the four dynamic
multipliers, while `effective_min_spread_bps` equals the base
`min_spread_bps` *divided* by that minimum; consequently, for
nonnegative base limits, decreasing any multipliers (pointwise) never
increases the three multiplied limits, and for positive multipliers
never decreases the effective spread floor. -/
theorem effective_limits_formula_and_monotonicity
    (d d' : DynamicRiskLimits)
    (hbase : d'.base_limits = d.base_limits)
    (hv : d'.volatility_multiplier ≤ d.volatility_multiplier)
    (hl : d'.liquidity_multiplier ≤ d.liquidity_multiplier)
    (hc : d'.correlation_multiplier ≤ d.correlation_multiplier)
    (hp : d'.pnl_multiplier ≤ d.pnl_multiplier)
    (hbtc : 0 ≤ d.base_limits.max_btc_position)
    (heth : 0 ≤ d.base_limits.max_eth_position)
    (hord : 0 ≤ d.base_limits.max_order_notional)
    (hsp : 0 ≤ d.base_limits.min_spread_bps)
    (hpos : 0 < min d'.volatility_multiplier (min d'.liquidity_multiplier
      (min d'.correlation_multiplier d'.pnl_multiplier))) :
    (d.calculate_effective_limits.effective_max_position_btc =
        d.base_limits.max_btc_position * min d.volatility_multiplier
          (min d.liquidity_multiplier (min d.correlation_multiplier d.pnl_multiplier)) ∧
      d.calculate_effective_limits.effective_max_position_eth =
        d.base_limits.max_eth_position * min d.volatility_multiplier
          (min d.liquidity_multiplier (min d.correlation_multiplier d.pnl_multiplier)) ∧
      d.calculate_effective_limits.effective_max_order_size =
        d.base_limits.max_order_notional * min d.volatility_multiplier
          (min d.liquidity_multiplier (min d.correlation_multiplier d.pnl_multiplier)) ∧
      d.calculate_effective_limits.effective_min_spread_bps =
        d.base_limits.min_spread_bps / min d.volatility_multiplier
          (min d.liquidity_multiplier (min d.correlation_multiplier d.pnl_multiplier))) ∧
    (d'.calculate_effective_limits.effective_max_position_btc ≤
        d.calculate_effective_limits.effective_max_position_btc ∧
      d'.calculate_effective_limits.effective_max_position_eth ≤
        d.calculate_effective_limits.effective_max_position_eth ∧
      d'.calculate_effective_limits.effective_max_order_size ≤
        d.calculate_effective_limits.effective_max_order_size ∧
      d.calculate_effective_limits.effective_min_spread_bps ≤
        d'.calculate_effective_limits.effective_min_spread_bps) := by
  have hmin : min d'.volatility_multiplier (min d'.liquidity_multiplier
      (min d'.correlation_multiplier d'.pnl_multiplier)) ≤
      min d.volatility_multiplier (min d.liquidity_multiplier
      (min d.correlation_multiplier d.pnl_multiplier)) :=
    min_le_min hv (min_le_min hl (min_le_min hc hp))
  constructor
  · exact ⟨rfl, rfl, rfl, rfl⟩
  · refine ⟨?_, ?_, ?_, ?_⟩ <;>
      simp only [DynamicRiskLimits.calculate_effective_limits, hbase]
    · exact mul_le_mul_of_nonneg_left hmin hbtc
    · exact mul_le_mul_of_nonneg_left hmin heth
    · exact mul_le_mul_of_nonneg_left hmin hord
    · exact div_le_div_of_nonneg_left hsp hpos hmin

/-- Witness for the amended C3 theorem at the concrete instance of the
counterexample (defaults against volatility multiplier 1/2). -/
theorem effective_limits_formula_witness :
    ({ volatility_multiplier := 1 / 2 } :
        DynamicRiskLimits).calculate_effective_limits.effective_max_position_btc ≤
      ({} : DynamicRiskLimits).calculate_effective_limits.effective_max_position_btc :=
  (effective_limits_formula_and_monotonicity {} { volatility_multiplier := 1 / 2 }
    rfl (by norm_num) (by norm_num) (by norm_num) (by norm_num)
    (by norm_num) (by norm_num) (by norm_num) (by norm_num) (by norm_num)).2.1

end Hft.Risk

namespace Hft.Pos

/-- CLAIM C2.  Trace of scenario S6 through `Position::add_trade`:
starting flat, trading +1.0 @ 100.0 then −1.5 @ 120.0 realises +20.0 on
the closed unit and leaves quantity −0.5 — but the code leaves
`avg_price` at 100.0 (no fresh average at the execution price 120.0 on
the sign flip), so `update_unrealized_pnl` at mark 110.0 yields −5.0,
not the claimed +5.0. -/
theorem position_flip_trace_eval :
    ((({} : Position).add_trade 1 100).add_trade (-(3 / 2)) 120).realized_pnl = 20 ∧
    ((({} : Position).add_trade 1 100).add_trade (-(3 / 2)) 120).quantity = -(1 / 2) ∧
    ((({} : Position).add_trade 1 100).add_trade (-(3 / 2)) 120).avg_price = 100 ∧
    ((({} : Position).add_trade 1 100).add_trade (-(3 / 2)) 120).avg_price ≠ 120 ∧
    (((({} : Position).add_trade 1 100).add_trade (-(3 / 2)) 120).update_unrealized_pnl
        110).unrealized_pnl = -5 ∧
    (((({} : Position).add_trade 1 100).add_trade (-(3 / 2)) 120).update_unrealized_pnl
        110).unrealized_pnl ≠ 5 := by
  norm_num [Position.add_trade, Position.update_unrealized_pnl, abs_of_nonneg]

end Hft.Pos

namespace Hft.Seq

open Hft

/-- CLAIM C8.  In the initial state, after the producer claims sequence 0
with `next()` and before any commit, the commit watermark is still 0,
`is_committed(0)` is `false`, and yet `get_committed()` returns
`0 − 1 = 2^64 − 1`, which is ≥ the claimed-but-uncommitted sequence 0:
the consumer-side query reports every sequence as covered although no
commit has been issued. -/
theorem get_committed_initial_underflow :
    (SPSCSequencer.init.next).1 = 0 ∧
    (SPSCSequencer.init.next).2.committed = 0 ∧
    (SPSCSequencer.init.next).2.get_committed = 2 ^ 64 - 1 ∧
    (SPSCSequencer.init.next).1 ≤ (SPSCSequencer.init.next).2.get_committed ∧
    (SPSCSequencer.init.next).2.is_committed 0 = false := by
  refine ⟨rfl, rfl, ?_, Nat.zero_le _, rfl⟩
  show u64sub 0 1 = 2 ^ 64 - 1
  rw [u64sub]
  norm_num [U64]
  rfl

end Hft.Seq

namespace Hft.Exch

open Hft

/-- Unfolding equation: the orders of a level-list headed by one level
are that level's FIFO followed by the rest. -/
theorem flatten_snd_cons (q : ℕ) (os : List ExOrder)
    (tl : List (ℕ × List ExOrder)) :
    (((q, os) :: tl).map Prod.snd).flatten = os ++ (tl.map Prod.snd).flatten := rfl

/-- Membership after `insertLevel`: every order of the result is either an
old order or the inserted one. -/
theorem mem_insertLevel {before : ℕ → ℕ → Bool} {p : ℕ} {o x : ExOrder}
    {ls : List (ℕ × List ExOrder)}
    (hx : x ∈ ((insertLevel before p o ls).map Prod.snd).flatten) :
    x ∈ (ls.map Prod.snd).flatten ∨ x = o := by
  induction ls with
  | nil =>
      rw [insertLevel, flatten_snd_cons] at hx
      rcases List.mem_append.mp hx with hx | hx
      · exact Or.inr (List.mem_singleton.mp hx)
      · exact absurd hx (by simp)
  | cons hd tl ih =>
      obtain ⟨q, os⟩ := hd
      rw [flatten_snd_cons]
      simp only [insertLevel] at hx
      by_cases h1 : p = q
      · rw [if_pos h1, flatten_snd_cons] at hx
        rcases List.mem_append.mp hx with hx | hx
        · rcases List.mem_append.mp hx with hx | hx
          · exact Or.inl (List.mem_append.mpr (Or.inl hx))
          · exact Or.inr (List.mem_singleton.mp hx)
        · exact Or.inl (List.mem_append.mpr (Or.inr hx))
      · rw [if_neg h1] at hx
        by_cases h2 : before p q
        · rw [if_pos h2, flatten_snd_cons, flatten_snd_cons] at hx
          rcases List.mem_append.mp hx with hx | hx
          · exact Or.inr (List.mem_singleton.mp hx)
          · exact Or.inl hx
        · rw [if_neg h2, flatten_snd_cons] at hx
          rcases List.mem_append.mp hx with hx | hx
          · exact Or.inl (List.mem_append.mpr (Or.inl hx))
          · rcases ih hx with h | h
            · exact Or.inl (List.mem_append.mpr (Or.inr h))
            · exact Or.inr h

/-- The inserted order is present after `insertLevel`. -/
theorem inserted_mem_insertLevel {before : ℕ → ℕ → Bool} {p : ℕ} {o : ExOrder}
    (ls : List (ℕ × List ExOrder)) :
    o ∈ ((insertLevel before p o ls).map Prod.snd).flatten := by
  induction ls with
  | nil =>
      rw [insertLevel, flatten_snd_cons]
      exact List.mem_append.mpr (Or.inl (List.mem_singleton.mpr rfl))
  | cons hd tl ih =>
      obtain ⟨q, os⟩ := hd
      simp only [insertLevel]
      by_cases h1 : p = q
      · rw [if_pos h1, flatten_snd_cons]
        exact List.mem_append.mpr (Or.inl (List.mem_append.mpr (Or.inr (by simp))))
      · rw [if_neg h1]
        by_cases h2 : before p q
        · rw [if_pos h2, flatten_snd_cons]
          exact List.mem_append.mpr (Or.inl (by simp))
        · rw [if_neg h2, flatten_snd_cons]
          exact List.mem_append.mpr (Or.inr ih)

/-- Every order of a book after `add_order` is an old order or the newly
stamped one. -/
theorem mem_allOrders_add_order {bk : OrderBook} {o x : ExOrder}
    (hx : x ∈ (bk.add_order o).allOrders) :
    x ∈ bk.allOrders ∨ x = { o with priority := bk.next_priority } := by
  unfold OrderBook.add_order at hx
  by_cases hs : o.side = Side.buy
  · simp only [if_pos hs, OrderBook.allOrders, List.mem_append] at hx
    rcases hx with hx | hx
    · rcases mem_insertLevel hx with h | h
      · exact Or.inl (List.mem_append.mpr (Or.inl h))
      · exact Or.inr h
    · exact Or.inl (List.mem_append.mpr (Or.inr hx))
  · simp only [if_neg hs, OrderBook.allOrders, List.mem_append] at hx
    rcases hx with hx | hx
    · exact Or.inl (List.mem_append.mpr (Or.inl hx))
    · rcases mem_insertLevel hx with h | h
      · exact Or.inl (List.mem_append.mpr (Or.inr h))
      · exact Or.inr h

/-- The newly added order (with its stamped priority) rests in the
book. -/
theorem added_order_mem_allOrders (bk : OrderBook) (o : ExOrder) :
    { o with priority := bk.next_priority } ∈ (bk.add_order o).allOrders := by
  unfold OrderBook.add_order
  by_cases hs : o.side = Side.buy
  · simp only [if_pos hs, OrderBook.allOrders, List.mem_append]
    exact Or.inl (inserted_mem_insertLevel bk.bids)
  · simp only [if_neg hs, OrderBook.allOrders, List.mem_append]
    exact Or.inr (inserted_mem_insertLevel bk.asks)

/-- CLAIM C6 counterexample.  A fill-or-kill limit order (positive
quantity and price) submitted to the simulator passes `validate_order`
even though the book holds nothing it could fill against, so `submit_order`
does not reject it; and an acknowledged immediate-or-cancel order is
placed on the book by the ORDER_ACK path — its unfilled residue rests
instead of being cancelled. -/
theorem fok_ioc_not_enforced :
    validate_order
      { id := 1, side := .sell, otype := .limit, price := 9950000000,
        quantity := 100000000, timestamp := 1, trader_id := "T", tif := .fok }
      true = none ∧
    (OrderBook.add_order {}
      { id := 1, side := .sell, otype := .limit, price := 9950000000,
        quantity := 100000000, timestamp := 1, trader_id := "T", tif := .ioc }).asks =
      [(9950000000,
        [{ id := 1, side := .sell, otype := .limit, price := 9950000000,
           quantity := 100000000, timestamp := 1, trader_id := "T",
           tif := .ioc, priority := 0 }])] := by
  constructor
  · rfl
  · rfl

/-- CLAIM C6 (amended).  Submission-time validation is independent of the
order's time-in-force: `validate_order` accepts exactly the orders with
nonzero quantity, nonzero price when the type is LIMIT, and a present
symbol book — FOK fillability is never checked — and the newly
acknowledged order always rests on the book, whatever its
time-in-force. -/
theorem validate_order_ignores_tif (o : ExOrder) (hb : Bool) :
    validate_order o hb = validate_order { o with tif := .day } hb ∧
    (validate_order o hb = none ↔
      o.quantity ≠ 0 ∧ ¬(o.otype = .limit ∧ o.price = 0) ∧ hb = true) ∧
    { o with priority := (0 : ℕ) } ∈ (OrderBook.add_order {} o).allOrders := by
  refine ⟨rfl, ?_, added_order_mem_allOrders {} o⟩
  unfold validate_order
  split_ifs with h1 h2 h3 <;> simp_all

end Hft.Exch

namespace Hft

/-- Updating one key of an association list leaves lookups of other keys
unchanged. -/
theorem findA_updateA_ne [DecidableEq α] {k k' : α} (h : k' ≠ k) (d : β)
    (f : β → β) (l : List (α × β)) :
    findA k (updateA k' d f l) = findA k l := by
  induction l with
  | nil => simp [updateA, findA, h]
  | cons hd tl ih =>
      obtain ⟨k₀, v₀⟩ := hd
      by_cases h0 : k₀ = k'
      · subst h0
        simp [updateA, findA, h]
      · simp only [updateA, findA, if_neg h0]
        by_cases h1 : k₀ = k
        · simp [if_pos h1]
        · simp [if_neg h1, ih]

end Hft

namespace Hft.Pos

open Hft

/-- A tracker operation that does not trade on `(e, s)` cannot create a
position entry for `(e, s)`. -/
theorem position_entry_stable {op : TrackerOp} {t : PositionTracker}
    {e s : String} (hop : op.trades_on e s = false)
    (ht : findA (e, s) t.positions = none) :
    findA (e, s) (op.apply t).positions = none := by
  cases op with
  | add_trade e' s' q p =>
      simp only [TrackerOp.trades_on, Bool.and_eq_false_iff, decide_eq_false_iff_not]
        at hop
      have hne : (e', s') ≠ (e, s) := by
        intro hcontra
        injection hcontra with h1 h2
        rcases hop with h | h
        · simp [h1] at h
        · simp [h2] at h
      simp only [TrackerOp.apply, PositionTracker.add_trade]
      rw [findA_updateA_ne hne]
      exact ht
  | update_market_price e' s' p =>
      simp only [TrackerOp.apply, PositionTracker.update_market_price]
      by_cases hk : (e', s') = (e, s)
      · rw [hk, ht]
        exact ht
      · cases hfind : findA (e', s') t.positions with
        | none => simpa [hfind] using ht
        | some pos =>
            simp only [hfind]
            rw [findA_updateA_ne hk]
            exact ht

/-- A tracker operation that does not trade on exchange `e` leaves the
balance read for `e` at its default. -/
theorem balance_entry_stable {op : TrackerOp} {t : PositionTracker}
    {e : String} (hop : op.trades_on_exchange e = false)
    (ht : (findA e t.balances).getD {} = ({} : ExchangeBalance)) :
    (findA e (op.apply t).balances).getD {} = ({} : ExchangeBalance) := by
  cases op with
  | add_trade e' s' q p =>
      have hne : e' ≠ e := by
        simp only [TrackerOp.trades_on_exchange, decide_eq_false_iff_not] at hop
        exact hop
      simp only [TrackerOp.apply, PositionTracker.add_trade]
      by_cases h1 : strContains s' "BTC"
      · simp only [if_pos h1]
        rw [findA_updateA_ne hne]
        exact ht
      · by_cases h2 : strContains s' "ETH"
        · simp only [if_neg h1, if_pos h2]
          rw [findA_updateA_ne hne]
          exact ht
        · simpa [if_neg h1, if_neg h2] using ht
  | update_market_price e' s' p =>
      simpa [TrackerOp.apply, PositionTracker.update_market_price] using ht

/-- CLAIM C10.  For every `(exchange, symbol)` pair never traded on,
`get_position` returns the default-constructed all-zero `Position`; and
for every exchange never traded on, `get_balance` returns the
default-constructed `ExchangeBalance`, whose starting funds are the
nonzero 1 BTC / 10 ETH / 50000 USD (total and available) — not an error
or an empty balance. -/
theorem tracker_fresh_defaults (ops : List TrackerOp) (e s : String) :
    ((∀ op ∈ ops, op.trades_on e s = false) →
      (PositionTracker.run ops).get_position e s = ({} : Position)) ∧
    ((∀ op ∈ ops, op.trades_on_exchange e = false) →
      (PositionTracker.run ops).get_balance e = ({} : ExchangeBalance)) ∧
    ({} : Position) = ⟨0, 0, 0, 0, 0⟩ ∧
    ({} : ExchangeBalance) = ⟨1, 10, 50000, 1, 10, 50000⟩ := by
  have aux1 : ∀ (l : List TrackerOp) (t : PositionTracker),
      (∀ op ∈ l, op.trades_on e s = false) →
      findA (e, s) t.positions = none →
      findA (e, s) (l.foldl TrackerOp.apply t).positions = none := by
    intro l
    induction l with
    | nil => intro t _ ht; exact ht
    | cons op tl ih =>
        intro t hl ht
        exact ih _ (fun o ho => hl o (List.mem_cons_of_mem _ ho))
          (position_entry_stable (hl op (List.mem_cons_self _ _)) ht)
  have aux2 : ∀ (l : List TrackerOp) (t : PositionTracker),
      (∀ op ∈ l, op.trades_on_exchange e = false) →
      (findA e t.balances).getD {} = ({} : ExchangeBalance) →
      (findA e ((l.foldl TrackerOp.apply t)).balances).getD {} =
        ({} : ExchangeBalance) := by
    intro l
    induction l with
    | nil => intro t _ ht; exact ht
    | cons op tl ih =>
        intro t hl ht
        exact ih _ (fun o ho => hl o (List.mem_cons_of_mem _ ho))
          (balance_entry_stable (hl op (List.mem_cons_self _ _)) ht)
  refine ⟨?_, ?_, rfl, rfl⟩
  · intro h
    have := aux1 ops PositionTracker.init h (by rfl)
    simp [PositionTracker.run, PositionTracker.get_position, this]
  · intro h
    have hinit : (findA e PositionTracker.init.balances).getD {} =
        ({} : ExchangeBalance) := by
      simp only [PositionTracker.init, findA]
      split_ifs <;> rfl
    exact aux2 ops PositionTracker.init h hinit

/-- Witness for C10: after one trade on COINBASE ETH/USD, reading the
untouched pair (BINANCE, BTC/USD) and the untouched BINANCE balance
yields the defaults. -/
theorem tracker_fresh_defaults_witness :
    (PositionTracker.run [TrackerOp.add_trade "COINBASE" "ETH/USD" 1 2000,
        TrackerOp.update_market_price "COINBASE" "ETH/USD" 2100]).get_position
      "BINANCE" "BTC/USD" = ({} : Position) ∧
    (PositionTracker.run [TrackerOp.add_trade "COINBASE" "ETH/USD" 1 2000,
        TrackerOp.update_market_price "COINBASE" "ETH/USD" 2100]).get_balance
      "BINANCE" = ({} : ExchangeBalance) := by
  constructor
  · exact (tracker_fresh_defaults _ "BINANCE" "BTC/USD").1 (by decide)
  · exact (tracker_fresh_defaults _ "BINANCE" "BTC/USD").2.1 (by decide)

end Hft.Pos

namespace Hft.Risk

open Hft

/-- With the emergency stop set, `can_execute_trade` rejects immediately
and leaves the state untouched (the first check of the cascade). -/
theorem can_execute_trade_of_es {st : RMState} (h : st.emergency_stop_active = true)
    (env : RMEnv) (e s : String) (q p sp : ℚ) :
    st.can_execute_trade env e s q p sp = (false, st) := by
  unfold RMState.can_execute_trade
  rw [if_pos h]

/-- With the emergency stop set, `is_trading_halted` reports a halt and
leaves the state untouched. -/
theorem is_trading_halted_of_es {st : RMState} (h : st.emergency_stop_active = true)
    (now : ℕ) : st.is_trading_halted now = (true, st) := by
  unfold RMState.is_trading_halted
  rw [if_pos h]

/-- Any operation other than `reset_emergency_stop` keeps the
emergency-stop flag set once it is set. -/
theorem es_stays {op : RMOp} (hop : op ≠ RMOp.reset_emergency_stop)
    {st : RMState} (hes : st.emergency_stop_active = true) :
    (RMOp.apply st op).emergency_stop_active = true := by
  cases op with
  | can_execute env e s q p sp =>
      rw [RMOp.apply, can_execute_trade_of_es hes]
      exact hes
  | emergency_stop =>
      rfl
  | reset_emergency_stop =>
      exact absurd rfl hop
  | update_limits l => exact hes
  | create_risk_event => exact hes
  | is_trading_halted now =>
      rw [RMOp.apply, is_trading_halted_of_es hes]
      exact hes

/-- CLAIM C4.  After `emergency_stop` has been called, the flag survives
any interleaving of non-reset operations, and every subsequent
`can_execute_trade` (the check behind every trade authorization) returns
a rejection for any arguments, until `reset_emergency_stop` is called. -/
theorem emergency_stop_latches (st0 : RMState) (ops : List RMOp)
    (hops : RMOp.reset_emergency_stop ∉ ops)
    (env : RMEnv) (e s : String) (q p sp : ℚ) :
    (ops.foldl RMOp.apply st0.emergency_stop).emergency_stop_active = true ∧
    ((ops.foldl RMOp.apply st0.emergency_stop).can_execute_trade
        env e s q p sp).1 = false := by
  have hfold : ∀ (l : List RMOp) (t : RMState),
      RMOp.reset_emergency_stop ∉ l → t.emergency_stop_active = true →
      (l.foldl RMOp.apply t).emergency_stop_active = true := by
    intro l
    induction l with
    | nil => intro t _ ht; exact ht
    | cons op tl ih =>
        intro t hl ht
        have hop : op ≠ RMOp.reset_emergency_stop := by
          intro hcontra
          exact hl (hcontra ▸ List.mem_cons_self _ _)
        exact ih _ (fun hmem => hl (List.mem_cons_of_mem _ hmem)) (es_stays hop ht)
  have h1 := hfold ops st0.emergency_stop hops rfl
  refine ⟨h1, ?_⟩
  rw [can_execute_trade_of_es h1]

/-- Witness for C4: a fresh manager, `emergency_stop`, then a limits
update, a risk event, and a halted-state query — the next authorization
check still rejects. -/
theorem emergency_stop_latches_witness :
    (([RMOp.update_limits {}, RMOp.create_risk_event,
        RMOp.is_trading_halted 5].foldl RMOp.apply
          ({} : RMState).emergency_stop).can_execute_trade
        {} "COINBASE" "BTC/USD" (1 / 100) 50000 30).1 = false :=
  (emergency_stop_latches {} [RMOp.update_limits {}, RMOp.create_risk_event,
    RMOp.is_trading_halted 5] (by simp) {} "COINBASE" "BTC/USD"
    (1 / 100) 50000 30).2

end Hft.Risk

namespace Hft.Ring

/-- Inductive invariant of the SPSC ring buffer indices: each cached view
lags its true counterpart, reads never overtake writes, and writes never
run more than `SIZE` ahead of reads. -/
theorem rb_invariant {SIZE : ℕ} {st : SPSCRingBuffer} (h : RBReachable SIZE st) :
    st.cached_read_pos ≤ st.read_pos ∧ st.read_pos ≤ st.write_pos ∧
    st.cached_write_pos ≤ st.write_pos ∧ st.write_pos ≤ st.read_pos + SIZE := by
  induction h with
  | init => exact ⟨Nat.le_refl _, Nat.le_refl _, Nat.le_refl _, Nat.zero_le _⟩
  | write h ih =>
      obtain ⟨i1, i2, i3, i4⟩ := ih
      unfold SPSCRingBuffer.write
      dsimp only
      split_ifs with h1 h2 <;> refine ⟨?_, ?_, ?_, ?_⟩ <;> dsimp only <;> omega
  | read h ih =>
      obtain ⟨i1, i2, i3, i4⟩ := ih
      unfold SPSCRingBuffer.read
      dsimp only
      split_ifs with h1 h2 <;> refine ⟨?_, ?_, ?_, ?_⟩ <;> dsimp only <;> omega

/-- CLAIM C9.  In every reachable state of the SPSC ring buffer, `write`
returns `false` exactly when the buffer already holds `SIZE` unread
messages (the write position is exactly `SIZE` ahead of the read
position), and the number of accepted writes minus completed reads —
`write_pos − read_pos`, since each accepted write advances `write_pos`
by one and each completed read advances `read_pos` by one — never
exceeds `SIZE`. -/
theorem write_full_iff_and_conservation {SIZE : ℕ} {st : SPSCRingBuffer}
    (h : RBReachable SIZE st) :
    ((SPSCRingBuffer.write SIZE st).1 = false ↔
      st.write_pos - st.read_pos = SIZE) ∧
    st.write_pos - st.read_pos ≤ SIZE := by
  obtain ⟨i1, i2, i3, i4⟩ := rb_invariant h
  constructor
  · unfold SPSCRingBuffer.write
    dsimp only
    split_ifs with h1 h2
    · exact iff_of_true rfl (by omega)
    · exact iff_of_false (fun hcontra => hcontra) (by omega)
    · exact iff_of_false (fun hcontra => hcontra) (by omega)
  · omega

/-- Witness for C9 at the freshly constructed buffer of capacity 64. -/
theorem write_full_iff_witness :
    ((SPSCRingBuffer.write 64 {}).1 = false ↔
      ({} : SPSCRingBuffer).write_pos - ({} : SPSCRingBuffer).read_pos = 64) ∧
    ({} : SPSCRingBuffer).write_pos - ({} : SPSCRingBuffer).read_pos ≤ 64 :=
  write_full_iff_and_conservation RBReachable.init

end Hft.Ring

namespace Hft.Exch

open Hft

/-- Evaluation rule for `qtrunc` at a concrete nonnegative value. -/
theorem qtrunc_eq {x : ℚ} {n : ℕ} (h1 : (n : ℚ) ≤ x) (h2 : x < n + 1) :
    qtrunc x = n := by
  have hfl : ⌊x⌋ = (n : ℤ) := by
    rw [Int.floor_eq_iff]
    exact ⟨by exact_mod_cast h1, by push_cast; exact h2⟩
  rw [qtrunc, hfl]
  rfl

/-- Scaling a quantity by a factor at most one cannot increase it (the
cast truncates toward zero, and a negative product truncates to 0). -/
theorem qtrunc_mul_le (q : ℕ) {x : ℚ} (hx : x ≤ 1) : qtrunc ((q : ℚ) * x) ≤ q := by
  have hq : (q : ℚ) * x ≤ (q : ℚ) := by
    calc (q : ℚ) * x ≤ (q : ℚ) * 1 :=
          mul_le_mul_of_nonneg_left hx (by positivity)
      _ = (q : ℚ) := mul_one _
  have hfl : ⌊(q : ℚ) * x⌋ ≤ (q : ℤ) := by
    have := Int.floor_le_floor hq
    simpa using this
  rw [qtrunc]
  exact Int.toNat_le.mpr hfl

/-- The S1 book decomposes into the two resting orders with their stamped
priorities. -/
theorem s1book_eq :
    s1book = { bids := [(10000000000, [{ s1M with priority := 0 }])],
               asks := [(9950000000, [{ s1T with priority := 1 }])],
               next_priority := 2 } := rfl

/-- One iteration of the matching loop on the S1 book: it crosses, and —
because the bid arrived first — the code picks `best_ask.price` = 99.50
as the match price, marks the bid side as maker, and fills 0.4. -/
theorem s1_match_pre :
    match_pre {} s1book = .ready s1bk1 s1imp s1fillM s1fillT := by
  rw [s1book_eq]
  simp only [match_pre, s1bk1, s1imp, s1fillM, s1fillT, s1M, s1T,
    FeeStructure.calculate_fee, to_float_price, ExOrder.remaining_quantity,
    u64sub, u64add, U64, PRICE_MULTIPLIER]
  norm_num [max_def, show Int.toNat 40000000 = 40000000 from rfl]

/-- Completing the S1 iteration: for any admissible value of the square
root inside the impact model, the fully filled taker order is popped and
its level erased, and the maker rests with its fill recorded. -/
theorem s1_match_finish {sq : ℚ} (hsq : sqrtApprox (3 / 5) sq) :
    match_finish {} sq s1bk1 s1imp = s1final := by
  obtain ⟨hsq0, _, _⟩ := hsq
  unfold match_finish popHead apply_market_impact
  simp only [s1bk1, s1imp, s1final, s1M, s1T, ExOrder.remaining_quantity,
    u64sub, U64, to_float_price, PRICE_MULTIPLIER]
  norm_num [show Int.toNat 60000000 = 60000000 from rfl]
  refine ⟨rfl, ?_⟩
  simp only [ExOrder.is_fully_filled, decide_eq_true_iff]
  exact qtrunc_mul_le 40000000 (by nlinarith)

/-- CLAIM C1.  Running the matching loop on the S1 book (maker `M` buy
100.00 × 1.0 resting first, taker `T` sell 99.50 × 0.4) produces exactly
one match of quantity 0.4 with `M` as maker and `M` left with 0.6
remaining — but at price 99.50, the *incoming taker's* limit price, not
the resting side's 100.00: the code's `match_price` ternary selects
`best_ask.price` when the bid arrived first, i.e. the later order's
price, contradicting both the spec and the adjacent comment "price
improvement to taker".  The result holds for every admissible value of
the impact model's square root (`sqrtApprox (3/5) sq`, the argument being
`to_float(0.6)`). -/
theorem s1_cross_at_taker_price {sq : ℚ} (hsq : sqrtApprox (3 / 5) sq) :
    match_orders {} {} 2 [sq] s1book = (s1final, [s1fillM, s1fillT]) ∧
    s1fillM.price = 9950000000 ∧
    s1fillM.price ≠ s1M.price ∧
    s1fillM.quantity = 40000000 ∧
    s1fillM.is_maker = true ∧
    s1fillT.is_maker = false ∧
    ({ s1M with priority := 0, filled_quantity := 40000000 } :
      ExOrder).remaining_quantity = 60000000 := by
  refine ⟨?_, rfl, by decide, rfl, rfl, rfl, ?_⟩
  · show match_orders {} {} (1 + 1) [sq] s1book = (s1final, [s1fillM, s1fillT])
    rw [match_orders, s1_match_pre]
    simp only [List.headD, List.tail]
    rw [s1_match_finish hsq]
    rw [match_orders]
    have hdone : match_pre {} s1final = .done := rfl
    rw [hdone]
  · show u64sub 100000000 40000000 = 60000000
    rw [u64sub_of_le (by norm_num) (by norm_num [U64])]

/-- Witness for C1 at the concrete square-root value 0.7745 (which
satisfies the `sqrtApprox (3/5)` bracket). -/
theorem s1_cross_witness :
    match_orders {} {} 2 [(7745 : ℚ) / 10000] s1book =
      (s1final, [s1fillM, s1fillT]) :=
  (s1_cross_at_taker_price (by constructor <;> norm_num [sqrtApprox])).1

end Hft.Exch

namespace Hft.Exch

open Hft

/-- The trace book `c7b2` decomposes into its two resting orders. -/
theorem c7b2_eq :
    c7b2 = { bids := [(10000000000, [{ c7M1 with priority := 1 }])],
             asks := [(9950000000, [{ c7T1 with priority := 0 }])],
             next_priority := 2 } := rfl

/-- First trace iteration, pre-impact: `c7M1` (arriving second) crosses
`c7T1` at the bid's price for 1.0; the bid fills completely, so the
impact order is the ask head. -/
theorem c7_match_pre1 :
    match_pre {} c7b2 = .ready c7bk1 c7io1 c7f1 c7f2 := by
  rw [c7b2_eq]
  simp only [match_pre, c7bk1, c7io1, c7f1, c7f2, c7M1, c7T1,
    FeeStructure.calculate_fee, to_float_price, ExOrder.remaining_quantity,
    u64sub, u64add, U64, PRICE_MULTIPLIER]
  norm_num [max_def, show Int.toNat 100000000 = 100000000 from rfl,
    show Int.toNat 100000001 = 100000001 from rfl]

/-- First trace iteration, post-impact: the sell-side impact scales the
bid side; the fully filled bid head is popped and its level erased,
leaving `c7T1` resting one tick short of full. -/
theorem c7_match_finish1 :
    match_finish {} (1 / 10000) c7bk1 c7io1 = c7b3 := by
  unfold match_finish popHead apply_market_impact
  simp only [c7bk1, c7io1, c7b3, c7M1, c7T1, ExOrder.remaining_quantity,
    u64sub, U64, to_float_price, PRICE_MULTIPLIER]
  rw [if_neg (show ¬(Side.sell = Side.buy) by decide)]
  norm_num [show Int.toNat 1 = 1 from rfl,
    qtrunc_eq (x := (9999999998999999 : ℚ) / 100000000) (n := 99999999)
      (by norm_num) (by norm_num)]
  exact ⟨by decide, by decide⟩

/-- The trace book `c7b4` decomposes into its three resting orders. -/
theorem c7b4_eq :
    c7b4 = { bids := [(9920000000, [{ c7M2 with priority := 3 }])],
             asks := [(9900000000, [{ c7T2 with priority := 2 }]),
                      (9950000000,
                        [{ c7T1 with priority := 0, filled_quantity := 100000000 }])],
             next_priority := 4 } := rfl

/-- Second trace iteration, pre-impact: `c7M2` (arriving second) crosses
`c7T2` at the bid's price for 0.5; the bid keeps 0.5 remaining, so it is
the impact order. -/
theorem c7_match_pre2 :
    match_pre {} c7b4 = .ready c7bk2 c7io2 c7f3 c7f4 := by
  rw [c7b4_eq]
  simp only [match_pre, c7bk2, c7io2, c7f3, c7f4, c7M2, c7T2,
    FeeStructure.calculate_fee, to_float_price, ExOrder.remaining_quantity,
    u64sub, u64add, U64, PRICE_MULTIPLIER]
  norm_num [max_def, show Int.toNat 100000000 = 100000000 from rfl,
    show Int.toNat 50000000 = 50000000 from rfl]

/-- Second trace iteration, post-impact: the buy-side impact scales every
ask — the fully filled `c7T2` is popped, and the untouched-by-matching
`c7T1` has its displayed quantity truncated from 100000001 to 99999929
while its `filled_quantity` stays 100000000. -/
theorem c7_match_finish2 :
    match_finish {} ((7071 : ℚ) / 10000) c7bk2 c7io2 = c7b5 := by
  unfold match_finish popHead apply_market_impact
  simp only [c7bk2, c7io2, c7b5, c7M2, c7T2, c7T1, ExOrder.remaining_quantity,
    u64sub, U64, to_float_price, PRICE_MULTIPLIER]
  norm_num [show Int.toNat 50000000 = 50000000 from rfl,
    qtrunc_eq (x := (9999992879 : ℚ) / 200) (n := 49999964)
      (by norm_num) (by norm_num),
    qtrunc_eq (x := (999999297899992879 : ℚ) / 10000000000) (n := 99999929)
      (by norm_num) (by norm_num)]
  exact ⟨by decide, by decide⟩

/-- The final trace book is reachable: two submissions, a full matching
iteration, two more submissions, and a second matching iteration, with
admissible square-root values 0.0001 (for `√(1e-8)`) and 0.7071 (for
`√0.5`). -/
theorem c7_reach : Reach {} {} c7b5 := by
  have r1 : Reach {} {} (OrderBook.add_order {} c7T1) :=
    Reach.submit Reach.init rfl (by norm_num [c7T1]) (by norm_num [c7T1, U64])
      (fun _ => by norm_num [c7T1])
  have r2 : Reach {} {} c7b2 :=
    Reach.submit r1 rfl (by norm_num [c7M1]) (by norm_num [c7M1, U64])
      (fun _ => by norm_num [c7M1])
  have hsq1 : sqrtApprox (to_float_price c7io1.remaining_quantity) (1 / 10000) := by
    have hrem : c7io1.remaining_quantity = 1 := by
      show u64sub 100000001 100000000 = 1
      rw [u64sub_of_le (by norm_num) (by norm_num [U64])]
    rw [hrem]
    refine ⟨by norm_num, ?_, ?_⟩ <;> norm_num [to_float_price, PRICE_MULTIPLIER]
  have r3 : Reach {} {} c7b3 := by
    have := Reach.step r2 c7_match_pre1 hsq1
    rwa [c7_match_finish1] at this
  have r4 : Reach {} {} c7b4 := by
    have ha : Reach {} {} (c7b3.add_order c7T2) :=
      Reach.submit r3 rfl (by norm_num [c7T2]) (by norm_num [c7T2, U64])
        (fun _ => by norm_num [c7T2])
    exact Reach.submit ha rfl (by norm_num [c7M2]) (by norm_num [c7M2, U64])
      (fun _ => by norm_num [c7M2])
  have hsq2 : sqrtApprox (to_float_price c7io2.remaining_quantity) ((7071 : ℚ) / 10000) := by
    have hrem : c7io2.remaining_quantity = 50000000 := by
      show u64sub 100000000 50000000 = 50000000
      rw [u64sub_of_le (by norm_num) (by norm_num [U64])]
    rw [hrem]
    refine ⟨by norm_num, ?_, ?_⟩ <;> norm_num [to_float_price, PRICE_MULTIPLIER]
  have r5 := Reach.step r4 c7_match_pre2 hsq2
  rwa [c7_match_finish2] at r5

/-- CLAIM C7 counterexample.  A state reachable through submission,
matching, and the market-impact adjustment (the book `c7b5`, under the
default fee structure and default impact model) holds an order with
`quantity < filled_quantity`: its `remaining_quantity()` wraps around to
2^64 − 71 (the signed value would be −71), and `is_fully_filled()` holds
while `remaining` is nonzero — refuting both halves of the claimed
invariant. -/
theorem impact_breaks_remaining_invariant :
    ∃ (bk : OrderBook) (o : ExOrder), Reach {} {} bk ∧ o ∈ bk.allOrders ∧
      o.quantity < o.filled_quantity ∧
      o.is_fully_filled = true ∧
      o.remaining_quantity = 2 ^ 64 - 71 ∧
      o.remaining_quantity ≠ 0 := by
  refine ⟨c7b5, c7bad, c7_reach, ?_, by norm_num [c7bad, c7T1], rfl, ?_, ?_⟩
  · simp [c7b5, c7bad, OrderBook.allOrders]
  · show u64sub 99999929 100000000 = 2 ^ 64 - 71
    rw [u64sub]
    norm_num [U64]
    rfl
  · show u64sub 99999929 100000000 ≠ 0
    rw [u64sub]
    norm_num [U64]

end Hft.Exch

namespace Hft.Exch

open Hft

/-- Truncating a whole number is the identity. -/
theorem qtrunc_natCast (q : ℕ) : qtrunc (q : ℚ) = q := by
  rw [qtrunc, Int.floor_natCast]
  exact Int.toNat_natCast q

/-- With both impact coefficients zero, the market-impact adjustment
leaves the book unchanged (`quantity · (1 − 0)` truncates back to
`quantity`). -/
theorem apply_market_impact_zero {im : MarketImpactModel}
    (h1 : im.linear_impact = 0) (h2 : im.sqrt_impact = 0) (sq : ℚ)
    (o : ExOrder) (bk : OrderBook) (pr : ℚ) :
    apply_market_impact im sq o bk pr = bk := by
  unfold apply_market_impact
  dsimp only
  rw [h1, h2]
  have hscale : ∀ ord : ExOrder,
      { ord with quantity := qtrunc ((ord.quantity : ℚ) *
        (1 - ((0 : ℚ) * to_float_price o.remaining_quantity + 0 * sq) * pr * (1 / 10))) }
        = ord := by
    intro ord
    have hx : ((ord.quantity : ℚ) *
        (1 - ((0 : ℚ) * to_float_price o.remaining_quantity + 0 * sq) * pr * (1 / 10)))
        = (ord.quantity : ℚ) := by ring
    rw [hx, qtrunc_natCast]
  split_ifs <;> simp only [hscale, List.map_id', Prod.mk.eta]

/-- Erasing an empty head level preserves the order population. -/
theorem match_pre_cleaned_allOrders {fees : FeeStructure} {bk bk' : OrderBook}
    (h : match_pre fees bk = .cleaned bk') : bk'.allOrders = bk.allOrders := by
  obtain ⟨bids, asks, np⟩ := bk
  rcases bids with _ | ⟨⟨bp, bos⟩, brest⟩
  · simp [match_pre] at h
  · rcases asks with _ | ⟨⟨ap, aos⟩, arest⟩
    · simp [match_pre] at h
    · rcases bos with _ | ⟨bo, btail⟩ <;> rcases aos with _ | ⟨ao, atail⟩
      · simp only [match_pre, StepPre.cleaned.injEq] at h
        subst h
        simp [OrderBook.allOrders, flatten_snd_cons]
      · simp only [match_pre, StepPre.cleaned.injEq] at h
        subst h
        simp [OrderBook.allOrders, flatten_snd_cons]
      · simp only [match_pre, StepPre.cleaned.injEq] at h
        subst h
        simp [OrderBook.allOrders, flatten_snd_cons]
      · simp only [match_pre] at h
        by_cases hp : bo.price < ao.price
        · rw [if_pos hp] at h
          exact absurd h (by simp)
        · rw [if_neg hp] at h
          exact absurd h (by simp)

/-- Inversion of a productive matching iteration: the book had nonempty
head levels on both sides, and the result book advanced exactly the two
head orders' `filled_quantity` by the match quantity; the impact order is
one of the two updated heads. -/
theorem match_pre_ready_inv {fees : FeeStructure} {bk bk₁ : OrderBook}
    {w : ExOrder} {f1 f2 : Fill}
    (h : match_pre fees bk = .ready bk₁ w f1 f2) :
    ∃ bp bo btail brest ap ao atail arest,
      bk.bids = (bp, bo :: btail) :: brest ∧
      bk.asks = (ap, ao :: atail) :: arest ∧
      bk₁ = { bk with
        bids := (bp, { bo with filled_quantity := u64add bo.filled_quantity (min bo.remaining_quantity ao.remaining_quantity) } :: btail) :: brest
        asks := (ap, { ao with filled_quantity := u64add ao.filled_quantity (min bo.remaining_quantity ao.remaining_quantity) } :: atail) :: arest } ∧
      (w = { bo with filled_quantity := u64add bo.filled_quantity (min bo.remaining_quantity ao.remaining_quantity) } ∨
       w = { ao with filled_quantity := u64add ao.filled_quantity (min bo.remaining_quantity ao.remaining_quantity) }) := by
  obtain ⟨bids, asks, np⟩ := bk
  rcases bids with _ | ⟨⟨bp, bos⟩, brest⟩
  · simp [match_pre] at h
  · rcases asks with _ | ⟨⟨ap, aos⟩, arest⟩
    · simp [match_pre] at h
    · rcases bos with _ | ⟨bo, btail⟩ <;> rcases aos with _ | ⟨ao, atail⟩
      · simp [match_pre] at h
      · simp [match_pre] at h
      · simp [match_pre] at h
      · simp only [match_pre] at h
        by_cases hp : bo.price < ao.price
        · rw [if_pos hp] at h
          exact absurd h (by simp)
        · rw [if_neg hp] at h
          refine ⟨bp, bo, btail, brest, ap, ao, atail, arest, rfl, rfl, ?_, ?_⟩
          · injection h with h1 h2 h3 h4
            exact h1.symm
          · injection h with h1 h2 h3 h4
            by_cases hw : 0 < ({ bo with filled_quantity := u64add bo.filled_quantity (min bo.remaining_quantity ao.remaining_quantity) } : ExOrder).remaining_quantity
            · rw [if_pos hw] at h2
              exact Or.inl h2.symm
            · rw [if_neg hw] at h2
              exact Or.inr h2.symm

end Hft.Exch

namespace Hft.Exch

open Hft

/-- Popping cannot introduce orders: membership after `popHead` implies
membership before. -/
theorem mem_popHead {x : ExOrder} {l : List (ℕ × List ExOrder)}
    (hx : x ∈ ((popHead l).map Prod.snd).flatten) :
    x ∈ (l.map Prod.snd).flatten := by
  rcases l with _ | ⟨⟨p, os⟩, rest⟩
  · exact hx
  · rcases os with _ | ⟨o, tail⟩
    · exact hx
    · simp only [popHead] at hx
      by_cases hf : o.is_fully_filled
      · rw [if_pos hf] at hx
        by_cases ht : tail.isEmpty
        · rw [if_pos ht] at hx
          rw [flatten_snd_cons]
          exact List.mem_append.mpr (Or.inr hx)
        · rw [if_neg ht, flatten_snd_cons] at hx
          rw [flatten_snd_cons]
          rcases List.mem_append.mp hx with h | h
          · exact List.mem_append.mpr (Or.inl (List.mem_cons_of_mem _ h))
          · exact List.mem_append.mpr (Or.inr h)
      · rw [if_neg hf] at hx
        exact hx

/-- With zero impact coefficients, finishing an iteration only pops
orders: the resulting population is contained in `bk₁`'s. -/
theorem mem_match_finish_zero {im : MarketImpactModel}
    (h1 : im.linear_impact = 0) (h2 : im.sqrt_impact = 0) {sq : ℚ}
    {bk₁ : OrderBook} {w x : ExOrder}
    (hx : x ∈ (match_finish im sq bk₁ w).allOrders) : x ∈ bk₁.allOrders := by
  unfold match_finish at hx
  dsimp only at hx
  rw [apply_market_impact_zero h1 h2] at hx
  simp only [OrderBook.allOrders, List.mem_append] at hx ⊢
  rcases hx with hx | hx
  · exact Or.inl (mem_popHead hx)
  · exact Or.inr (mem_popHead hx)

/-- Inductive invariant of the book under submission and matching with
the market impact disabled (zero coefficients): every resting order has
`filled_quantity ≤ quantity` and a `uint64_t`-sized quantity. -/
theorem reach_no_impact_inv {fees : FeeStructure} {bk : OrderBook}
    (h : Reach fees { linear_impact := 0, sqrt_impact := 0 } bk) :
    ∀ o ∈ bk.allOrders, o.filled_quantity ≤ o.quantity ∧ o.quantity < U64 := by
  induction h with
  | init =>
      intro o ho
      simp [OrderBook.allOrders] at ho
  | @submit bk' o' h hf hq hq64 hp ih =>
      intro o ho
      rcases mem_allOrders_add_order ho with hmem | heq
      · exact ih o hmem
      · subst heq
        refine ⟨?_, hq64⟩
        show o'.filled_quantity ≤ o'.quantity
        rw [hf]
        exact Nat.zero_le _
  | @clean bk' bk'' h hc ih =>
      intro o ho
      exact ih o (by rwa [match_pre_cleaned_allOrders hc] at ho)
  | @step bk' bk₁ w f1 f2 sq h hr hsq ih =>
      intro o ho
      have ho₁ : o ∈ bk₁.allOrders := mem_match_finish_zero rfl rfl ho
      obtain ⟨bp, bo, btail, brest, ap, ao, atail, arest, hb, ha, hbk₁, hw⟩ :=
        match_pre_ready_inv hr
      have hbo : bo ∈ bk'.allOrders := by
        unfold OrderBook.allOrders
        rw [hb, flatten_snd_cons]
        simp
      have hao : ao ∈ bk'.allOrders := by
        unfold OrderBook.allOrders
        rw [ha, flatten_snd_cons]
        simp
      obtain ⟨hbo1, hbo2⟩ := ih bo hbo
      obtain ⟨hao1, hao2⟩ := ih ao hao
      have hrbo : bo.remaining_quantity = bo.quantity - bo.filled_quantity :=
        u64sub_of_le hbo1 hbo2
      have hrao : ao.remaining_quantity = ao.quantity - ao.filled_quantity :=
        u64sub_of_le hao1 hao2
      have hmbo : bo.filled_quantity + min bo.remaining_quantity ao.remaining_quantity
          ≤ bo.quantity := by
        have := min_le_left bo.remaining_quantity ao.remaining_quantity
        omega
      have hmao : ao.filled_quantity + min bo.remaining_quantity ao.remaining_quantity
          ≤ ao.quantity := by
        have := min_le_right bo.remaining_quantity ao.remaining_quantity
        omega
      have hubo : u64add bo.filled_quantity
          (min bo.remaining_quantity ao.remaining_quantity) =
          bo.filled_quantity + min bo.remaining_quantity ao.remaining_quantity :=
        u64add_of_lt (by omega)
      have huao : u64add ao.filled_quantity
          (min bo.remaining_quantity ao.remaining_quantity) =
          ao.filled_quantity + min bo.remaining_quantity ao.remaining_quantity :=
        u64add_of_lt (by omega)
      rw [hbk₁] at ho₁
      simp only [OrderBook.allOrders, flatten_snd_cons, List.mem_append,
        List.mem_cons] at ho₁
      have horig : ∀ y : ExOrder,
          (y ∈ btail ∨ y ∈ (brest.map Prod.snd).flatten) ∨
          (y ∈ atail ∨ y ∈ (arest.map Prod.snd).flatten) → y ∈ bk'.allOrders := by
        intro y hy
        unfold OrderBook.allOrders
        rw [hb, ha, flatten_snd_cons, flatten_snd_cons]
        simp only [List.mem_append, List.mem_cons]
        tauto
      rcases ho₁ with ((ho₁ | ho₁) | ho₁) | ((ho₁ | ho₁) | ho₁)
      · subst ho₁
        exact ⟨by dsimp only; rw [hubo]; exact hmbo, hbo2⟩
      · exact ih o (horig o (Or.inl (Or.inl ho₁)))
      · exact ih o (horig o (Or.inl (Or.inr ho₁)))
      · subst ho₁
        exact ⟨by dsimp only; rw [huao]; exact hmao, hao2⟩
      · exact ih o (horig o (Or.inr (Or.inl ho₁)))
      · exact ih o (horig o (Or.inr (Or.inr ho₁)))

/-- CLAIM C7 (amended).  With the market-impact adjustment disabled (both
impact coefficients zero), the claimed invariant does hold in every state
reachable through submission and matching: every resting order satisfies
`remaining = quantity − filled_quantity ≥ 0` (no unsigned wraparound in
`remaining_quantity()`), and `is_fully_filled()` holds iff `remaining`
is zero.  (With the default nonzero impact coefficients the invariant
fails; see the counterexample.) -/
theorem book_invariant_no_impact {fees : FeeStructure} {bk : OrderBook}
    (h : Reach fees { linear_impact := 0, sqrt_impact := 0 } bk) :
    ∀ o ∈ bk.allOrders,
      o.remaining_quantity = o.quantity - o.filled_quantity ∧
      o.filled_quantity ≤ o.quantity ∧
      (o.is_fully_filled = true ↔ o.remaining_quantity = 0) := by
  intro o ho
  obtain ⟨h1, h2⟩ := reach_no_impact_inv h o ho
  have hrem : o.remaining_quantity = o.quantity - o.filled_quantity :=
    u64sub_of_le h1 h2
  refine ⟨hrem, h1, ?_⟩
  simp only [ExOrder.is_fully_filled, decide_eq_true_iff, hrem]
  omega

/-- Witness for the amended C7 theorem: one freshly submitted order rests
with its full quantity remaining. -/
theorem book_invariant_no_impact_witness :
    ({ s1M with priority := 0 } : ExOrder).remaining_quantity =
      ({ s1M with priority := 0 } : ExOrder).quantity -
        ({ s1M with priority := 0 } : ExOrder).filled_quantity ∧
    ({ s1M with priority := 0 } : ExOrder).filled_quantity ≤
      ({ s1M with priority := 0 } : ExOrder).quantity ∧
    (({ s1M with priority := 0 } : ExOrder).is_fully_filled = true ↔
      ({ s1M with priority := 0 } : ExOrder).remaining_quantity = 0) :=
  @book_invariant_no_impact {} _
    (Reach.submit Reach.init rfl (by norm_num [s1M]) (by norm_num [s1M, U64])
      (fun _ => by norm_num [s1M]))
    { s1M with priority := 0 } (added_order_mem_allOrders {} s1M)

end Hft.Exch
